import Mathlib

/-!
Shallow embedding of the recipe-saver service (`src/app.py`) and proofs of
properties of its `/extract` HTTP handler.

The program is a single Flask handler.  We embed it as a total Lean function
from an explicit request value and an environment (the outcomes of the two
external SDKs — the generative-model client and the Notion client — together
with the `json.loads` library parser and the environment variables) to a
trace of external calls and an HTTP response.  JSON values are modelled by
the inductive type `Json`; the Python duck-typed operations the handler uses
(`dict.get`, iteration, `+`, `str.join`, truthiness, `{**d, ...}` spreads)
are modelled by functions that fail with a Python-level error exactly where
the source would raise.  Exceptions are modelled by the `Except` monad and
the two `except` clauses of the source by `handleExcept`.

String primitives (`strip`, `replace`, `upper`, substring search and the
regular expression of `parse_ingredient_rich_text`) are implemented over
`List Char`, restricted to ASCII character classes (Python's `\s` and `\d`
are Unicode-aware; no claim depends on non-ASCII corner cases).
-/

/-- A JSON value, the result shape of Python's `json.loads`. -/
inductive Json where
  | null
  | bool (b : Bool)
  | num (n : Int)
  | str (s : String)
  | arr (xs : List Json)
  | obj (kvs : List (String × Json))

/-- ASCII whitespace, Python's `str.strip` default set and `\s` class. -/
def isSpaceChar (c : Char) : Bool :=
  c = ' ' || c = '\t' || c = '\n' || c = '\r' || c = '\x0b' || c = '\x0c'

/-- The character class `[\d.]` of the gram-conversion regex. -/
def isNumDot (c : Char) : Bool := c.isDigit || c = '.'

/-- Python `str.strip()` on a character list. -/
def pyStripList (cs : List Char) : List Char :=
  ((cs.dropWhile isSpaceChar).reverse.dropWhile isSpaceChar).reverse

/-- Python `str.strip()`. -/
def pyStrip (s : String) : String := String.mk (pyStripList s.data)

/-- Is `pat` a prefix of the second list? -/
def isPrefixList : List Char → List Char → Bool
  | [], _ => true
  | _ :: _, [] => false
  | p :: ps, c :: cs => p = c && isPrefixList ps cs

/-- Left-to-right non-overlapping replacement, Python `str.replace` (the fuel
is the length of the scanned list, which bounds the number of steps). -/
def pyReplaceAux (pat rep : List Char) : Nat → List Char → List Char
  | 0, cs => cs
  | _ + 1, [] => []
  | fuel + 1, c :: rest =>
    if !pat.isEmpty && isPrefixList pat (c :: rest) then
      rep ++ pyReplaceAux pat rep fuel ((c :: rest).drop pat.length)
    else
      c :: pyReplaceAux pat rep fuel rest

/-- Python `s.replace(pat, rep)`. -/
def pyReplace (s pat rep : String) : String :=
  String.mk (pyReplaceAux pat.data rep.data s.data.length s.data)

/-- Python `str.upper()` (ASCII). -/
def pyUpper (s : String) : String := String.mk (s.data.map Char.toUpper)

/-- Does `needle` occur as a contiguous substring? -/
def hasSubList (needle : List Char) : List Char → Bool
  | [] => isPrefixList needle []
  | c :: rest => isPrefixList needle (c :: rest) || hasSubList needle rest

/-- Python `"YES" in s` (after the caller upper-cases `s`). -/
def containsYES (s : String) : Bool := hasSubList ['Y', 'E', 'S'] s.data

/-- The response-text cleanup of `app.py` lines 67 and 92:
`response.text.strip().replace('\x60\x60\x60json', '').replace('\x60\x60\x60', '').strip()`. -/
def clean (s : String) : String :=
  pyStrip (pyReplace (pyReplace (pyStrip s) "```json" "") "```" "")

/-- Python truthiness of a JSON value (`if x:`). -/
def truthy : Json → Bool
  | .null => false
  | .bool b => b
  | .num n => n != 0
  | .str s => !s.isEmpty
  | .arr xs => !xs.isEmpty
  | .obj kvs => !kvs.isEmpty

/-- Truthiness of `os.environ.get(...)` (absent or empty string is falsy). -/
def optTruthy : Option String → Bool
  | none => false
  | some s => !s.isEmpty

/-- First value bound to a key in an association list (Python dicts preserve
insertion order and have unique keys; lookup returns the binding). -/
def jlookup : List (String × Json) → String → Option Json
  | [], _ => none
  | (k, v) :: rest, key => if k = key then some v else jlookup rest key

/-- Top-level key membership in a JSON object. -/
def hasKey (j : Json) (k : String) : Bool :=
  match j with
  | .obj kvs => (jlookup kvs k).isSome
  | _ => false

/-- Top-level key lookup in a JSON object. -/
def getKey (j : Json) (k : String) : Option Json :=
  match j with
  | .obj kvs => jlookup kvs k
  | _ => none

/-- Replace the value of a key if present (keeping its position, as Python
dict assignment does), else append the binding. -/
def setPairs : List (String × Json) → String → Json → List (String × Json)
  | [], key, v => [(key, v)]
  | (k0, v0) :: rest, key, v =>
    if k0 = key then (key, v) :: rest else (k0, v0) :: setPairs rest key v

/-- A failure inside the `try` block of the handler: either a
`json.JSONDecodeError` from `json.loads`, an exception raised by Python
itself on a duck-typing violation, or an exception raised by an SDK call.
The carried string plays the role of `str(e)`. -/
inductive Failure where
  | jsonDecodeError
  | pyError (msg : String)
  | sdkError (msg : String)

/-- Python `x.get(key, dflt)`: only dicts have a `.get` attribute; every
other value raises `AttributeError`. -/
def jget (j : Json) (key : String) (dflt : Json) : Except Failure Json :=
  match j with
  | .obj kvs => .ok ((jlookup kvs key).getD dflt)
  | _ => .error (.pyError "AttributeError: no attribute get")

/-- Python `x[key] = v`: item assignment is only supported by dicts among
the values `json.loads` can produce. -/
def setItem (j : Json) (key : String) (v : Json) : Except Failure Json :=
  match j with
  | .obj kvs => .ok (.obj (setPairs kvs key v))
  | _ => .error (.pyError "TypeError: does not support item assignment")

/-- Python iteration (`for x in j`): lists yield elements, strings yield
one-character strings, dicts yield their keys; other values raise
`TypeError`. -/
def pyIter (j : Json) : Except Failure (List Json) :=
  match j with
  | .arr xs => .ok xs
  | .str s => .ok (s.data.map (fun c => Json.str (String.mk [c])))
  | .obj kvs => .ok (kvs.map (fun p => Json.str p.1))
  | _ => .error (.pyError "TypeError: object is not iterable")

/-- Python `a + b` on values a parsed-JSON field can hold: list and string
concatenation, numeric addition (booleans count as integers); mixed
operand kinds raise `TypeError`. -/
def pyAdd (a b : Json) : Except Failure Json :=
  match a, b with
  | .arr xs, .arr ys => .ok (.arr (xs ++ ys))
  | .str x, .str y => .ok (.str (x ++ y))
  | .num x, .num y => .ok (.num (x + y))
  | .num x, .bool y => .ok (.num (x + (if y then 1 else 0)))
  | .bool x, .num y => .ok (.num ((if x then 1 else 0) + y))
  | .bool x, .bool y => .ok (.num ((if x then 1 else 0) + (if y then 1 else 0)))
  | _, _ => .error (.pyError "TypeError: unsupported operand types for +")

/-- Python `str()` of a parsed-JSON value, as interpolated by an f-string.
For containers this is a simplified rendering of Python's `repr` (no claim
inspects a rendered container). -/
def pyStr : Json → String
  | .null => "None"
  | .bool b => if b then "True" else "False"
  | .num n => toString n
  | .str s => s
  | .arr _ => "[...]"
  | .obj _ => "\x7b...\x7d"

/-- Python `sep.join(it)`: iterate, requiring every element to be a string. -/
def pyJoin (sep : String) (j : Json) : Except Failure String :=
  match pyIter j with
  | .error f => .error f
  | .ok items =>
    match strsOf items with
    | none => .error (.pyError "TypeError: sequence item: expected str instance")
    | some ss => .ok (String.intercalate sep ss)
where
  strsOf : List Json → Option (List String)
    | [] => some []
    | .str s :: rest => (strsOf rest).map (fun ss => s :: ss)
    | _ => none

/-- Python `«\x7b**r, k1: v1, k2: v2\x7d»`: spreading requires a mapping. -/
def dictSpread (r : Json) (updates : List (String × Json)) : Except Failure Json :=
  match r with
  | .obj kvs => .ok (.obj (updates.foldl (fun acc p => setPairs acc p.1 p.2) kvs))
  | _ => .error (.pyError "TypeError: argument must be a mapping")

/-- Effectful map over a list in the `Except` monad, written recursively so
that it reduces definitionally. -/
def mapME (f : α → Except Failure β) : List α → Except Failure (List β)
  | [] => .ok []
  | x :: rest =>
    match f x with
    | .error e => .error e
    | .ok y =>
      match mapME f rest with
      | .error e => .error e
      | .ok ys => .ok (y :: ys)

/-- Match a character list in FULL against the tail pattern
`\s* \( \s* [\d.]+ \s* g \s* \) \s*` of the gram-conversion regex
(`app.py` line 131).  Each `\s*` / `[\d.]+` run is deterministic here
because the bracketing literals lie outside both character classes.
Returns `group(2)` of the regex — everything up to and including the
closing parenthesis — or `none` when the pattern does not match. -/
def matchGram (cs : List Char) : Option (List Char) :=
  let w1 := cs.takeWhile isSpaceChar
  match cs.dropWhile isSpaceChar with
  | [] => none
  | c1 :: r2 =>
    if c1 = '(' then
      let w2 := r2.takeWhile isSpaceChar
      let r3 := r2.dropWhile isSpaceChar
      let d := r3.takeWhile isNumDot
      let r4 := r3.dropWhile isNumDot
      if d.isEmpty then none
      else
        let w3 := r4.takeWhile isSpaceChar
        match r4.dropWhile isSpaceChar with
        | [] => none
        | c2 :: r6 =>
          if c2 = 'g' then
            let w4 := r6.takeWhile isSpaceChar
            match r6.dropWhile isSpaceChar with
            | [] => none
            | c3 :: r8 =>
              if c3 = ')' then
                if r8.all isSpaceChar then
                  some (w1 ++ '(' :: (w2 ++ d ++ w3 ++ 'g' :: (w4 ++ [')'])))
                else none
              else none
          else none
    else none

/-- `re.search` of the anchored pattern `^(.*?)(\s*\(\s*[\d.]+\s*g\s*\))\s*$`:
the lazy `(.*?)` makes `group(1)` the shortest prefix whose remainder
matches the tail pattern in full.  Without `re.DOTALL` the dot of `(.*?)`
cannot match a newline, so the scan for a match position stops at the first
newline: a candidate `group(1)` never contains one (the whitespace runs of
`group(2)` and the trailing `\s*` may, since `\s` matches `\n`).
Returns `(group(1), group(2))`. -/
def searchGram : List Char → Option (List Char × List Char)
  | [] => none
  | c :: rest =>
    match matchGram (c :: rest) with
    | some g2 => some ([], g2)
    | none =>
      if c = '\n' then none
      else (searchGram rest).map (fun p => (c :: p.1, p.2))

/-- A plain Notion rich-text segment `{"type": "text", "text": {"content": c}}`. -/
def textSegment (content : Json) : Json :=
  .obj [("type", .str "text"), ("text", .obj [("content", content)])]

/-- A gray-annotated Notion rich-text segment. -/
def graySegment (content : String) : Json :=
  .obj [("type", .str "text"), ("text", .obj [("content", .str content)]),
        ("annotations", .obj [("color", .str "gray")])]

/-- The nested helper `parse_ingredient_rich_text` of `app.py` lines 129-139:
split a measure like `1 cup flour (120g)` into the original measure and a
gray gram-conversion segment; any other string becomes one plain segment. -/
def parse_ingredient_rich_text (text : String) : List Json :=
  match searchGram text.data with
  | some (g1, g2) =>
    let mainTxt := String.mk (pyStripList g1)
    let converted := "    " ++ String.mk (pyStripList g2)
    [textSegment (.str mainTxt), graySegment converted]
  | none => [textSegment (.str text)]

example : parse_ingredient_rich_text "1 cup flour (120g)" =
    [textSegment (.str "1 cup flour"), graySegment "    (120g)"] := by rfl
example : parse_ingredient_rich_text "1 bay leaf" =
    [textSegment (.str "1 bay leaf")] := by rfl
example : parse_ingredient_rich_text "a\nb (120g)" =
    [textSegment (.str "a\nb (120g)")] := by rfl
example : parse_ingredient_rich_text "a\n (120g)" =
    [textSegment (.str "a"), graySegment "    (120g)"] := by rfl

/-- The constant `RECIPE_PROMPT_JSON` of `app.py` lines 15-49. -/
def RECIPE_PROMPT_JSON : String :=
  "Return ONLY a valid JSON object with exactly these fields:\n\x7b\n  \"title\": \"recipe name\",\n  \"isImaginary\": false,\n  \"ingredients\": \x7b\n    \"main\": [\"ingredient 1\", \"ingredient 2\"],\n    \"sauce\": [\"sauce ingredient 1\"],\n    \"spicesAndHerbs\": [\"spice 1\", \"herb 1\"]\n  \x7d,\n  \"steps\": [\n    \x7b\n      \"instruction\": \"step instruction text\",\n      \"ingredients\": [\"ingredient A\", \"ingredient B\"]\n    \x7d\n  ],\n  \"cookTime\": \"time or null\",\n  \"servings\": \"servings or null\",\n  \"lang\": \"en\"\n\x7d\nSet \"lang\" to \"fr\" if the recipe is in French, \"ko\" if Korean, \"en\" for everything else.\n\nIMPORTANT CONVERSION RULES:\n1. TEMPERATURE: Always convert Fahrenheit to Celsius. Write as \"200°C\" only. Never use Fahrenheit in output.\n2. VOLUME TO WEIGHT: Convert ALL volume and imperial measurements to grams. This includes: cup, tbsp, tsp, fl oz, oz, lb, pinch, handful, bunch, pack, and any other non-metric unit. For oz specifically: 1 oz = 28.35g, always convert. For lb: 1 lb = 454g, always convert. Use the specific ingredient\x27s density for accuracy. Format ALWAYS as: \"original measure ingredient name (Xg)\". Examples: \"1 cup flour (120g)\", \"2 tbsp olive oil (27g)\", \"1/4 cup fresh dill (10g)\", \"2 (8-oz.) salmon fillets (454g)\", \"1/2 cup sliced almonds (55g)\". NEVER skip a conversion if the ingredient has a measurable weight. Only skip if truly unmeasurable (e.g. \"1 bay leaf\" is acceptable to skip).\n3. Apply these conversions to both ingredients AND step instructions.\n\nLANGUAGE RULES:\n- If the recipe is in French or Korean, keep EVERYTHING in that original language (title, ingredients, steps, all text). Do not translate anything.\n- If the recipe is in any other language, translate everything to English.\n- The section headers (like ingredients, steps) should also match the recipe language. For French use: \"Ingrédients principaux\", h_sauce, \"Épices & Herbes\", \"Étapes\". For Korean use: \"주재료\", \"소스\", \"양념 & 허브\", \"조리 방법\".\n\nSet \"isImaginary\" to true if the image contains NO written recipe text and you are creating the recipe yourself based on what the food looks like. Set to false ONLY if there is actual written recipe text visible in the image.\nCategorize ingredients: main = proteins, vegetables, grains, dairy. sauce = liquids, oils, vinegars, condiments. spicesAndHerbs = dried/fresh spices, herbs, seasonings, salt, pepper.\nFor each step, list only the ingredients actually used in that step. If none, return empty array.\nNo markdown, no extra text, just the JSON."

/-- The image-mode prompt of `app.py` lines 83-89 (an f-string ending in `RECIPE_PROMPT_JSON`). -/
def imagePrompt : String :=
  "Look at these images carefully.\nCASE 1: If the image contains an actual written recipe, extract it exactly.\n- If multiple images are provided and overlap in content, treat them as one continuous recipe — do NOT duplicate or average out quantities.\n- Always use the FIRST complete mention of each ingredient\x27s quantity. Do not guess or adjust amounts.\n- Include ALL ingredients mentioned including toppings, garnishes, and serving suggestions.\nCASE 2: If the image only shows a food photo without a written recipe, create a realistic recipe for what you see.\n" ++ RECIPE_PROMPT_JSON

/-- The follow-up yes/no question of `app.py` line 97. -/
def checkQuestion : String :=
  "Does this image contain actual written recipe text — meaning a real ingredients list with quantities AND/OR numbered cooking steps? Captions, hashtags, usernames, titles, or short descriptions do NOT count. Answer only YES or NO."

/-- The text-mode prompt of `app.py` line 65 (an f-string over the stripped text). -/
def textPrompt (recipe_text : String) : String :=
  "Extract and structure a recipe from this text.\n\nText:\n" ++ recipe_text ++ "\n\n" ++ RECIPE_PROMPT_JSON

/-- Is the value a Python `str`? (`isinstance(x, str)`). -/
def isStrJ : Json → Bool
  | .str _ => true
  | _ => false

/-- The nested helper `checkbox` of `app.py` lines 141-143 (the block produced
for a given rich-text list). -/
def mkTodo (rich_text : List Json) : Json :=
  .obj [("object", .str "block"), ("type", .str "to_do"),
        ("to_do", .obj [("rich_text", .arr rich_text), ("checked", .bool false)])]

/-- The nested helper `checkbox(text, rich)` of `app.py` lines 141-143.  With
`rich=True` the text goes through `parse_ingredient_rich_text`, whose regex
search raises `TypeError` on a non-string argument. -/
def checkbox (text : Json) (rich : Bool) : Except Failure Json :=
  if rich then
    match text with
    | .str s => .ok (mkTodo (parse_ingredient_rich_text s))
    | _ => .error (.pyError "TypeError: expected string or bytes-like object")
  else .ok (mkTodo [textSegment text])

/-- The nested helper `heading3` of `app.py` lines 145-146. -/
def heading3 (text : String) : Json :=
  .obj [("object", .str "block"), ("type", .str "heading_3"),
        ("heading_3", .obj [("rich_text", .arr [textSegment (.str text)])])]

/-- A `heading_2` block (`app.py` lines 167 and 180). -/
def heading2 (text : String) : Json :=
  .obj [("object", .str "block"), ("type", .str "heading_2"),
        ("heading_2", .obj [("rich_text", .arr [textSegment (.str text)])])]

/-- A divider block. -/
def divider : Json :=
  .obj [("object", .str "block"), ("type", .str "divider"), ("divider", .obj [])]

/-- The blue italic per-step ingredient paragraph of `app.py` line 155. -/
def stepIngredientsParagraph (joined : String) : Json :=
  .obj [("object", .str "block"), ("type", .str "paragraph"),
        ("paragraph", .obj [("rich_text", .arr
          [.obj [("type", .str "text"),
                 ("text", .obj [("content", .str ("🧂 " ++ joined))]),
                 ("annotations", .obj [("color", .str "blue"), ("italic", .bool true)])]])])]

/-- The body of the `for step in steps` loop of `build_steps`
(`app.py` lines 150-155): the block(s) contributed by one step. -/
def stepBlocks (step : Json) : Except Failure (List Json) :=
  match (if isStrJ step then .ok step else jget step "instruction" (.str "")) with
  | .error f => .error f
  | .ok instruction =>
    match (if isStrJ step then .ok (.arr []) else jget step "ingredients" (.arr [])) with
    | .error f => .error f
    | .ok step_ings =>
      match checkbox instruction false with
      | .error f => .error f
      | .ok cb =>
        if truthy step_ings then
          match pyJoin "  ·  " step_ings with
          | .error f => .error f
          | .ok joined => .ok [cb, stepIngredientsParagraph joined]
        else .ok [cb]

/-- The nested helper `build_steps` of `app.py` lines 148-156. -/
def build_steps (steps : Json) : Except Failure (List Json) :=
  match pyIter steps with
  | .error f => .error f
  | .ok items =>
    match mapME stepBlocks items with
    | .error f => .error f
    | .ok ls => .ok ls.flatten

/-- One conditional ingredient section of `app.py` lines 169-177: when the
list is truthy, a `heading_3` followed by one rich checkbox per element of
the iteration. -/
def ingredientSection (hdr : String) (lst : Json) : Except Failure (List Json) :=
  if truthy lst then
    match pyIter lst with
    | .error f => .error f
    | .ok items =>
      match mapME (fun i => checkbox i true) items with
      | .error f => .error f
      | .ok cbs => .ok (heading3 hdr :: cbs)
  else .ok []

/-- The `isinstance(ingredients, list)` split of `app.py` lines 122-127. -/
def splitIngredients (ingredients : Json) : Except Failure (Json × Json × Json) :=
  match ingredients with
  | .arr xs => .ok (.arr xs, .arr [], .arr [])
  | _ =>
    match jget ingredients "main" (.arr []) with
    | .error f => .error f
    | .ok m =>
      match jget ingredients "sauce" (.arr []) with
      | .error f => .error f
      | .ok s =>
        match jget ingredients "spicesAndHerbs" (.arr []) with
        | .error f => .error f
        | .ok p => .ok (m, s, p)

/-- The imaginary-recipe warning callout of `app.py` line 160. -/
def imaginaryCallout : Json :=
  .obj [("object", .str "block"), ("type", .str "callout"),
        ("callout", .obj [("rich_text", .arr [textSegment (.str "⚠️ This is an AI-imagined recipe based on a food photo. Use as inspiration only!")]),
                          ("icon", .obj [("emoji", .str "🤖")]),
                          ("color", .str "yellow_background")])]

/-- The cook-time callout of `app.py` line 164. -/
def cookTimeCallout (cookDisplay : String) : Json :=
  .obj [("object", .str "block"), ("type", .str "callout"),
        ("callout", .obj [("rich_text", .arr [textSegment (.str ("⏱ Cook Time: " ++ cookDisplay ++ "     ⭐ My Rating:  ☆ ☆ ☆ ☆ ☆"))]),
                          ("icon", .obj [("emoji", .str "🍳")]),
                          ("color", .str "orange_background")])]

/-- The pink history heading of `app.py` lines 187-193. -/
def historyHeading : Json :=
  .obj [("object", .str "block"), ("type", .str "heading_2"),
        ("heading_2", .obj [("rich_text", .arr
          [.obj [("type", .str "text"),
                 ("text", .obj [("content", .str "📸 Seora\x27s History")]),
                 ("annotations", .obj [("color", .str "pink")])]])])]

/-- The gray italic history note of `app.py` lines 194-200. -/
def historyParagraph : Json :=
  .obj [("object", .str "block"), ("type", .str "paragraph"),
        ("paragraph", .obj [("rich_text", .arr
          [.obj [("type", .str "text"),
                 ("text", .obj [("content", .str "Drop your photos here when you make this recipe! 🍽️")]),
                 ("annotations", .obj [("color", .str "gray"), ("italic", .bool true)])]])])]

/-- The bottom source-link paragraph of `app.py` lines 207-216. -/
def sourceParagraph (link : String) : Json :=
  .obj [("object", .str "block"), ("type", .str "paragraph"),
        ("paragraph", .obj [("rich_text", .arr
          [.obj [("type", .str "text"),
                 ("text", .obj [("content", .str "🔗 Source: ")]),
                 ("annotations", .obj [("bold", .bool true)])],
           .obj [("type", .str "text"),
                 ("text", .obj [("content", .str link), ("link", .obj [("url", .str link)])]),
                 ("annotations", .obj [("color", .str "blue")])]])])]

/-- An uploaded file from `request.files.getlist('images')`: its
`content_type` and the bytes returned by `file.read()`. -/
structure ImageFile where
  content_type : String
  data : String

/-- The request data the handler reads: the multipart form fields and the
`images` file field (`none` models `'images' not in request.files`). -/
structure Request where
  form : List (String × String)
  files_images : Option (List ImageFile)

/-- Flask `request.form.get(key, '')`. -/
def formGet (req : Request) (key : String) : String :=
  match req.form.find? (fun p => p.1 = key) with
  | some p => p.2
  | none => ""

/-- One part of a `generate_content` argument list: prompt text or an
inline image (`app.py` lines 82 and 90). -/
inductive GenPart where
  | text (s : String)
  | inlineData (mime_type : String) (data : String)

/-- The keyword arguments of `notion.pages.create` (`app.py` lines 224-229). -/
structure NotionArgs where
  parent : Json
  icon : Json
  properties : Json
  children : List Json

/-- The environment of one request: the outcomes of the external SDK calls
(`model.generate_content`, `notion.pages.create`), the `json.loads` library
parser, `base64.b64encode`, and the two Notion environment variables.
An `Except.error` outcome of an SDK function models the call raising, with
the carried string playing the role of `str(e)`; an `Except.error` outcome
of `json_loads` models `json.JSONDecodeError`. -/
structure Env where
  generate_content : List GenPart → Except String String
  json_loads : String → Except Unit Json
  b64encode : String → String
  pages_create : NotionArgs → Except String Json
  notion_token : Option String
  notion_database_id : Option String

/-- One external SDK call made by the handler, tagged by call site:
the text-mode extraction (`app.py` line 66), the image-mode extraction
(line 91), the imaginary-recipe check (line 98) and the Notion page
creation (line 224). -/
inductive Event where
  | genTextExtract
  | genImageExtract
  | genImaginaryCheck
  | pagesCreate
  deriving DecidableEq

/-- An HTTP response: status code and JSON body. -/
structure Resp where
  status : Nat
  body : Json

/-- The body shape `jsonify({'error': msg}), status` used by every error
return of the handler. -/
def errorResp (status : Nat) (msg : String) : Resp :=
  ⟨status, .obj [("error", .str msg)]⟩

/-- The outcome of `app.py` lines 58-101: either an early validation
response, or a recipe value together with the `source` variable. -/
inductive Acquired where
  | early (r : Resp)
  | got (recipe : Json) (source : String)

/-- The `image_parts` list of `app.py` lines 79-82 as `generate_content`
parts (line 90). -/
def imageParts (env : Env) (files : List ImageFile) : List GenPart :=
  files.map (fun f => GenPart.inlineData f.content_type (env.b64encode f.data))

/-- Lines 58-101 of `app.py`: pick text or image mode, call the model,
parse its output, and fix up `isImaginary`.  Returns the trace of model
calls made alongside the outcome. -/
def acquireRecipe (env : Env) (req : Request) : List Event × Except Failure Acquired :=
  let recipe_text := pyStrip (formGet req "recipe_text")
  if recipe_text ≠ "" then
    let evs := [Event.genTextExtract]
    match env.generate_content [GenPart.text (textPrompt recipe_text)] with
    | .error e => (evs, .error (.sdkError e))
    | .ok rtext =>
      match env.json_loads (clean rtext) with
      | .error _ => (evs, .error .jsonDecodeError)
      | .ok r0 =>
        match setItem r0 "isImaginary" (.bool false) with
        | .error f => (evs, .error f)
        | .ok recipe => (evs, .ok (.got recipe "text"))
  else
    match req.files_images with
    | none => ([], .ok (.early (errorResp 400 "Please provide recipe text or upload images.")))
    | some files =>
      if files.isEmpty then ([], .ok (.early (errorResp 400 "No images provided")))
      else
        let parts := imageParts env files
        let evs := [Event.genImageExtract]
        match env.generate_content (GenPart.text imagePrompt :: parts) with
        | .error e => (evs, .error (.sdkError e))
        | .ok rtext =>
          match env.json_loads (clean rtext) with
          | .error _ => (evs, .error .jsonDecodeError)
          | .ok r0 =>
            let evs2 := evs ++ [Event.genImaginaryCheck]
            match env.generate_content (GenPart.text checkQuestion :: parts) with
            | .error e => (evs2, .error (.sdkError e))
            | .ok ctext =>
              if containsYES (pyUpper ctext) then (evs2, .ok (.got r0 "image"))
              else
                match setItem r0 "isImaginary" (.bool true) with
                | .error f => (evs2, .error f)
                | .ok recipe => (evs2, .ok (.got recipe "image"))

/-- The intermediate values of `app.py` lines 110-222 that the rest of the
handler uses: the raw `isImaginary` value, the three ingredient lists, the
steps value, the page children and the page title. -/
structure PageContent where
  is_imaginary : Json
  main_list : Json
  sauce_list : Json
  spice_list : Json
  steps : Json
  children : List Json
  title : Json

/-- Lines 110-222 of `app.py`: read the recipe fields and build the Notion
page children and title. -/
def pageContent (recipe : Json) (source_link : String) : Except Failure PageContent :=
  match jget recipe "isImaginary" (.bool false) with
  | .error f => .error f
  | .ok is_imaginary =>
    match jget recipe "ingredients" (.obj []) with
    | .error f => .error f
    | .ok ingredients =>
      match jget recipe "steps" (.arr []) with
      | .error f => .error f
      | .ok steps =>
        match splitIngredients ingredients with
        | .error f => .error f
        | .ok (main_list, sauce_list, spice_list) =>
          match jget recipe "cookTime" .null with
          | .error f => .error f
          | .ok cookVal =>
            let cookDisplay := if truthy cookVal then pyStr cookVal else "N/A"
            match ingredientSection "Main Ingredients" main_list with
            | .error f => .error f
            | .ok mainSec =>
              match ingredientSection "Sauce" sauce_list with
              | .error f => .error f
              | .ok sauceSec =>
                match ingredientSection "Spices & Herbs" spice_list with
                | .error f => .error f
                | .ok spiceSec =>
                  match build_steps steps with
                  | .error f => .error f
                  | .ok stepSec =>
                    match jget recipe "title" (.str "Untitled Recipe") with
                    | .error f => .error f
                    | .ok title0 =>
                      let title := if truthy is_imaginary
                        then Json.str ("✨ " ++ pyStr title0 ++ " (AI Recipe)")
                        else title0
                      let children :=
                        (if truthy is_imaginary then [imaginaryCallout] else [])
                        ++ [cookTimeCallout cookDisplay, divider, heading2 "🥘 Ingredients"]
                        ++ mainSec ++ sauceSec ++ spiceSec
                        ++ [divider, heading2 "👨‍🍳 Steps"] ++ stepSec
                        ++ [divider, historyHeading, historyParagraph]
                        ++ (if source_link ≠ "" then [divider, sourceParagraph source_link] else [])
                      .ok ⟨is_imaginary, main_list, sauce_list, spice_list, steps, children, title⟩

/-- The `notion.pages.create` keyword arguments of `app.py` lines 224-229. -/
def mkArgs (dbid : String) (pc : PageContent) : NotionArgs :=
  { parent := .obj [("database_id", .str dbid)],
    icon := .obj [("emoji", .str (if truthy pc.is_imaginary then "🤖" else "🍽️"))],
    properties := .obj [("title", .obj [("title", .arr [.obj [("text", .obj [("content", pc.title)])]])])],
    children := pc.children }

/-- The `if not notion_token or not notion_database_id` check of `app.py`
line 106 (an `os.environ.get` result is falsy when absent or empty). -/
def notionConfigured (env : Env) : Bool :=
  optTruthy env.notion_token && optTruthy env.notion_database_id

/-- Lines 231-234 of `app.py`: flatten the ingredient lists and steps and
assemble the success JSON body. -/
def finishBody (recipe : Json) (pc : PageContent) (source : String) (notion_response : Json) : Except Failure Json :=
  match pyAdd pc.main_list pc.sauce_list with
  | .error f => .error f
  | .ok all1 =>
    match pyAdd all1 pc.spice_list with
    | .error f => .error f
    | .ok all_ingredients =>
      match pyIter pc.steps with
      | .error f => .error f
      | .ok items =>
        match mapME (fun s => if isStrJ s then .ok s else jget s "instruction" (.str "")) items with
        | .error f => .error f
        | .ok flat_steps =>
          match jget notion_response "url" (.str "") with
          | .error f => .error f
          | .ok notion_url =>
            match dictSpread recipe [("ingredients", all_ingredients), ("steps", .arr flat_steps)] with
            | .error f => .error f
            | .ok rec =>
              .ok (.obj [("success", .bool true), ("isImaginary", pc.is_imaginary),
                         ("source", .str source), ("notion_url", notion_url), ("recipe", rec)])

/-- Lines 103-234 of `app.py`: the Notion configuration check, page
building, the `pages.create` call and the success response. -/
def runSave (env : Env) (req : Request) (recipe : Json) (source : String) (evs : List Event) : List Event × Except Failure Resp :=
  if notionConfigured env then
    match pageContent recipe (pyStrip (formGet req "source_link")) with
    | .error f => (evs, .error f)
    | .ok pc =>
      let evs2 := evs ++ [Event.pagesCreate]
      match env.pages_create (mkArgs (env.notion_database_id.getD "") pc) with
      | .error e => (evs2, .error (.sdkError e))
      | .ok nr =>
        match finishBody recipe pc source nr with
        | .error f => (evs2, .error f)
        | .ok b => (evs2, .ok ⟨200, b⟩)
  else (evs, .ok (errorResp 500 "Notion not configured"))

/-- The whole `try` block of `extract_recipe` (`app.py` lines 57-234). -/
def tryBody (env : Env) (req : Request) : List Event × Except Failure Resp :=
  match acquireRecipe env req with
  | (evs, .error f) => (evs, .error f)
  | (evs, .ok (.early r)) => (evs, .ok r)
  | (evs, .ok (.got recipe source)) => runSave env req recipe source evs

/-- The `str(e)` rendering of a caught exception. -/
def strOfFailure : Failure → String
  | .jsonDecodeError => "Expecting value"
  | .pyError m => m
  | .sdkError m => m

/-- The two `except` clauses of `app.py` lines 236-239: `JSONDecodeError`
maps to the fixed retry message, any other exception to the generic
`jsonify({'error': str(e)}), 500` response. -/
def handleExcept : Except Failure Resp → Resp
  | .ok r => r
  | .error .jsonDecodeError => errorResp 500 "Could not parse recipe. Try again or rephrase the text."
  | .error f => errorResp 500 (strOfFailure f)

/-- The `/extract` handler `extract_recipe` of `app.py` lines 55-239, as a
function from environment and request to the trace of external SDK calls
and the HTTP response. -/
def extract_recipe (env : Env) (req : Request) : List Event × Resp :=
  let p := tryBody env req
  (p.1, handleExcept p.2)

/-!  Specification-side predicates and supporting lemmas for the
gram-conversion regex. -/

/-- A parenthesized gram amount, the shape matched by `group(2)` of the
regex: optional whitespace, `(`, whitespace, one or more digits-or-dots,
whitespace, `g`, whitespace, `)`. -/
def GramCore (g : List Char) : Prop :=
  ∃ w1 w2 d w3 w4,
    w1.all isSpaceChar = true ∧ w2.all isSpaceChar = true ∧
    d ≠ [] ∧ d.all isNumDot = true ∧
    w3.all isSpaceChar = true ∧ w4.all isSpaceChar = true ∧
    g = w1 ++ '(' :: (w2 ++ d ++ w3 ++ 'g' :: (w4 ++ [')']))

/-- A list that is a parenthesized gram amount followed by whitespace. -/
def GramTail (b : List Char) : Prop :=
  ∃ g w5, w5.all isSpaceChar = true ∧ GramCore g ∧ b = g ++ w5

/-- The input ends in a parenthesized gram amount (like `(120g)`), possibly
followed by trailing whitespace. -/
def EndsInGramAmount (s : String) : Prop :=
  ∃ a b, s.data = a ++ b ∧ GramTail b

/-- The regex actually matches the input: some newline-free prefix is
followed by a parenthesized gram amount and trailing whitespace.  The
prefix must be newline-free because the lazy `(.*?)` has no `re.DOTALL`;
the gram amount and the trailing run may contain newlines, since `\s`
matches `\n`. -/
def MatchesGramAmount (s : String) : Prop :=
  ∃ a b, s.data = a ++ b ∧ '\n' ∉ a ∧ GramTail b

theorem space_not_numDot {c : Char} (h : isSpaceChar c = true) : isNumDot c = false := by
  simp only [isSpaceChar, Bool.or_eq_true, decide_eq_true_eq] at h
  rcases h with ((((h | h) | h) | h) | h) | h <;> subst h <;> decide

theorem takeWhile_all_append {α : Type} {p : α → Bool} {w t : List α}
    (hw : w.all p = true) (ht : ∀ c, t.head? = some c → p c = false) :
    (w ++ t).takeWhile p = w ∧ (w ++ t).dropWhile p = t := by
  induction w with
  | nil =>
    simp only [List.nil_append]
    cases t with
    | nil => simp
    | cons c t' =>
      have hc := ht c rfl
      simp [List.takeWhile_cons, List.dropWhile_cons, hc]
  | cons a w' ih =>
    simp only [List.all_cons, Bool.and_eq_true] at hw
    have ih' := ih hw.2
    simp [List.takeWhile_cons, List.dropWhile_cons, hw.1, ih'.1, ih'.2]

theorem head_not_pred {p q : Char → Bool} {w t : List Char}
    (hw : w.all p = true) (hpq : ∀ c, p c = true → q c = false)
    (ht : ∀ c, t.head? = some c → q c = false) :
    ∀ c, (w ++ t).head? = some c → q c = false := by
  intro c hc
  cases w with
  | nil => exact ht c (by simpa using hc)
  | cons a w' =>
    simp only [List.cons_append, List.head?_cons, Option.some.injEq] at hc
    subst hc
    simp only [List.all_cons, Bool.and_eq_true] at hw
    exact hpq _ hw.1

theorem numDot_not_space {c : Char} (h : isNumDot c = true) : isSpaceChar c = false := by
  by_contra hc
  rw [Bool.not_eq_false] at hc
  simp [space_not_numDot hc] at h

theorem matchGram_some_decomp {cs g : List Char} (h : matchGram cs = some g) :
    GramCore g ∧ ∃ w5, w5.all isSpaceChar = true ∧ cs = g ++ w5 := by
  simp only [matchGram] at h
  split at h
  · exact absurd h (by simp)
  next c1 r2 heq1 =>
    split at h
    case isFalse => exact absurd h (by simp)
    case isTrue hc1 =>
      subst hc1
      split at h
      · exact absurd h (by simp)
      case isFalse hd =>
        split at h
        · exact absurd h (by simp)
        next c2 r6 heq2 =>
          split at h
          case isFalse => exact absurd h (by simp)
          case isTrue hc2 =>
            subst hc2
            split at h
            · exact absurd h (by simp)
            next c3 r8 heq3 =>
              split at h
              case isFalse => exact absurd h (by simp)
              case isTrue hc3 =>
                subst hc3
                split at h
                case isFalse => exact absurd h (by simp)
                case isTrue h5 =>
                  rw [Option.some.injEq] at h
                  have e0 := List.takeWhile_append_dropWhile isSpaceChar cs
                  rw [heq1] at e0
                  have e1 := List.takeWhile_append_dropWhile isSpaceChar r2
                  have e2 := List.takeWhile_append_dropWhile isNumDot (r2.dropWhile isSpaceChar)
                  have e3 := List.takeWhile_append_dropWhile isSpaceChar
                    ((r2.dropWhile isSpaceChar).dropWhile isNumDot)
                  rw [heq2] at e3
                  have e4 := List.takeWhile_append_dropWhile isSpaceChar r6
                  rw [heq3] at e4
                  have hdne : (r2.dropWhile isSpaceChar).takeWhile isNumDot ≠ [] := by
                    intro e
                    exact hd (by simp [e])
                  refine ⟨⟨cs.takeWhile isSpaceChar, r2.takeWhile isSpaceChar,
                    (r2.dropWhile isSpaceChar).takeWhile isNumDot,
                    ((r2.dropWhile isSpaceChar).dropWhile isNumDot).takeWhile isSpaceChar,
                    r6.takeWhile isSpaceChar,
                    List.all_takeWhile, List.all_takeWhile, hdne, List.all_takeWhile,
                    List.all_takeWhile, List.all_takeWhile, h.symm⟩, r8, h5, ?_⟩
                  subst h
                  have key : cs = cs.takeWhile isSpaceChar ++ '(' ::
                      (r2.takeWhile isSpaceChar ++ ((r2.dropWhile isSpaceChar).takeWhile isNumDot ++
                        (((r2.dropWhile isSpaceChar).dropWhile isNumDot).takeWhile isSpaceChar ++
                          'g' :: (r6.takeWhile isSpaceChar ++ ')' :: r8)))) := by
                    rw [e4, e3, e2, e1, e0]
                  nth_rewrite 1 [key]
                  simp [List.append_assoc]

theorem matchGram_append {g w5 : List Char} (hg : GramCore g)
    (h5 : w5.all isSpaceChar = true) : matchGram (g ++ w5) = some g := by
  obtain ⟨w1, w2, d, w3, w4, hw1, hw2, hdne, hdall, hw3, hw4, rfl⟩ := hg
  obtain ⟨d0, d', rfl⟩ : ∃ d0 d', d = d0 :: d' := by
    cases d with
    | nil => exact absurd rfl hdne
    | cons a b => exact ⟨a, b, rfl⟩
  have hd0 : isNumDot d0 = true := by
    simp only [List.all_cons, Bool.and_eq_true] at hdall
    exact hdall.1
  have hshape : (w1 ++ '(' :: (w2 ++ (d0 :: d') ++ w3 ++ 'g' :: (w4 ++ [')']))) ++ w5 =
      w1 ++ '(' :: (w2 ++ ((d0 :: d') ++ (w3 ++ 'g' :: (w4 ++ ')' :: w5)))) := by
    simp [List.append_assoc]
  rw [hshape]
  have q1 := takeWhile_all_append (p := isSpaceChar) hw1
    (t := '(' :: (w2 ++ ((d0 :: d') ++ (w3 ++ 'g' :: (w4 ++ ')' :: w5)))))
    (by intro c hc; simp only [List.head?_cons, Option.some.injEq] at hc; subst hc; decide)
  have hshape2 : w2 ++ ((d0 :: d') ++ (w3 ++ 'g' :: (w4 ++ ')' :: w5))) =
      w2 ++ (d0 :: (d' ++ (w3 ++ 'g' :: (w4 ++ ')' :: w5)))) := by
    simp
  have q2 := takeWhile_all_append (p := isSpaceChar) hw2
    (t := d0 :: (d' ++ (w3 ++ 'g' :: (w4 ++ ')' :: w5))))
    (by intro c hc; simp only [List.head?_cons, Option.some.injEq] at hc; subst hc
        exact numDot_not_space hd0)
  have q3 := takeWhile_all_append (p := isNumDot) hdall
    (t := w3 ++ 'g' :: (w4 ++ ')' :: w5))
    (head_not_pred hw3 (fun c h => space_not_numDot h)
      (by intro c hc; simp only [List.head?_cons, Option.some.injEq] at hc; subst hc; decide))
  have q4 := takeWhile_all_append (p := isSpaceChar) hw3
    (t := 'g' :: (w4 ++ ')' :: w5))
    (by intro c hc; simp only [List.head?_cons, Option.some.injEq] at hc; subst hc; decide)
  have q5 := takeWhile_all_append (p := isSpaceChar) hw4
    (t := ')' :: w5)
    (by intro c hc; simp only [List.head?_cons, Option.some.injEq] at hc; subst hc; decide)
  have q3' : ((d0 :: d') ++ (w3 ++ 'g' :: (w4 ++ ')' :: w5))) =
      d0 :: (d' ++ (w3 ++ 'g' :: (w4 ++ ')' :: w5))) := by simp
  simp only [matchGram, q1.1, q1.2]
  rw [hshape2, q2.1, q2.2, ← q3', q3.1, q3.2, q4.1, q4.2]
  simp [q5.1, q5.2, h5]

theorem searchGram_eq_none_iff {cs : List Char} :
    searchGram cs = none ↔
      ∀ a b, cs = a ++ b → '\n' ∉ a → matchGram b = none := by
  induction cs with
  | nil =>
    constructor
    · intro _ a b hab _
      have hb : b = [] := (List.append_eq_nil.mp hab.symm).2
      subst hb
      rfl
    · intro _
      rfl
  | cons c rest ih =>
    simp only [searchGram]
    cases hm : matchGram (c :: rest) with
    | some g =>
      constructor
      · intro h
        exact absurd h (by simp)
      · intro h
        have hnone := h [] (c :: rest) rfl (by simp)
        rw [hm] at hnone
        exact absurd hnone (by simp)
    | none =>
      by_cases hc : c = '\n'
      · subst hc
        rw [if_pos rfl]
        constructor
        · intro _ a b hab hnl
          cases a with
          | nil =>
            simp only [List.nil_append] at hab
            subst hab
            exact hm
          | cons a0 a' =>
            simp only [List.cons_append, List.cons.injEq] at hab
            refine absurd ?_ hnl
            rw [← hab.1]
            exact List.mem_cons_self _ _
        · intro _
          rfl
      · rw [if_neg hc, Option.map_eq_none', ih]
        constructor
        · intro h a b hab hnl
          cases a with
          | nil =>
            simp only [List.nil_append] at hab
            subst hab
            exact hm
          | cons a0 a' =>
            simp only [List.cons_append, List.cons.injEq] at hab
            refine h a' b hab.2 ?_
            intro hmem
            exact hnl (List.mem_cons_of_mem _ hmem)
        · intro h a b hab hnl
          refine h (c :: a) b (by rw [List.cons_append, hab]) ?_
          intro hmem
          rcases List.mem_cons.mp hmem with h1 | h1
          · exact hc h1.symm
          · exact hnl h1

theorem searchGram_some_split {cs g1 g2 : List Char}
    (h : searchGram cs = some (g1, g2)) :
    ∃ b, cs = g1 ++ b ∧ matchGram b = some g2 ∧ '\n' ∉ g1 := by
  induction cs generalizing g1 g2 with
  | nil => exact absurd h (by simp [searchGram])
  | cons c rest ih =>
    simp only [searchGram] at h
    split at h
    case h_1 g hm =>
      simp only [Option.some.injEq, Prod.mk.injEq] at h
      obtain ⟨h1, h2⟩ := h
      subst h1
      subst h2
      exact ⟨c :: rest, rfl, hm, by simp⟩
    case h_2 hm =>
      split at h
      case isTrue => exact absurd h (by simp)
      case isFalse hc =>
        cases hs : searchGram rest with
        | none =>
          rw [hs] at h
          exact absurd h (by simp)
        | some p =>
          rw [hs] at h
          obtain ⟨p1, p2⟩ := p
          simp only [Option.map_some', Option.some.injEq, Prod.mk.injEq] at h
          obtain ⟨h1, h2⟩ := h
          subst h1
          subst h2
          obtain ⟨b, hb, hmb, hnl⟩ := ih hs
          refine ⟨b, by rw [List.cons_append, ← hb], hmb, ?_⟩
          intro hmem
          rcases List.mem_cons.mp hmem with h1 | h1
          · exact hc h1.symm
          · exact hnl h1

/-- Claim C10 counterexample: the input `a\nb (120g)` does end in a
parenthesized gram amount, yet `parse_ingredient_rich_text` returns one
plain segment carrying the input unchanged, not the two-segment split:
without `re.DOTALL` the lazy `(.*?)` cannot match the newline before the
amount, so `re.search` finds no match. -/
theorem c10_counterexample :
    EndsInGramAmount "a\nb (120g)" ∧
    parse_ingredient_rich_text "a\nb (120g)" =
      [textSegment (.str "a\nb (120g)")] := by
  constructor
  · exact ⟨['a', '\n', 'b'], [' ', '(', '1', '2', '0', 'g', ')'], rfl,
      [' ', '(', '1', '2', '0', 'g', ')'], [], rfl,
      ⟨[' '], [], ['1', '2', '0'], [], [],
        rfl, rfl, by decide, rfl, rfl, rfl, by decide⟩, by decide⟩
  · rfl

/-- Claim C10 (amended): for every input string,
`parse_ingredient_rich_text` is total and returns either exactly one plain
text segment carrying the input unchanged (when the gram-amount regex does
not match, in particular whenever a newline precedes the gram amount), or
exactly two segments: the stripped newline-free original measure text, and
a gray segment carrying the gram conversion prefixed by four spaces. -/
theorem c10_regex_segments (s : String) :
    (¬ MatchesGramAmount s ∧ parse_ingredient_rich_text s = [textSegment (.str s)]) ∨
    (MatchesGramAmount s ∧ ∃ g1 g2 w5,
      s.data = g1 ++ (g2 ++ w5) ∧ '\n' ∉ g1 ∧
      w5.all isSpaceChar = true ∧ GramCore g2 ∧
      parse_ingredient_rich_text s =
        [textSegment (.str (String.mk (pyStripList g1))),
         graySegment ("    " ++ String.mk (pyStripList g2))]) := by
  cases h : searchGram s.data with
  | none =>
    left
    constructor
    · rintro ⟨a, b, hab, hnl, g, w5, h5, hcore, rfl⟩
      have hm := matchGram_append hcore h5
      have hnone := searchGram_eq_none_iff.mp h a (g ++ w5) hab hnl
      simp [hm] at hnone
    · simp [parse_ingredient_rich_text, h]
  | some p =>
    obtain ⟨g1, g2⟩ := p
    right
    obtain ⟨b, hb, hmb, hnl⟩ := searchGram_some_split h
    obtain ⟨hcore, w5, h5, rfl⟩ := matchGram_some_decomp hmb
    refine ⟨⟨g1, g2 ++ w5, hb, hnl, g2, w5, h5, hcore, rfl⟩,
      g1, g2, w5, hb, hnl, h5, hcore, ?_⟩
    simp [parse_ingredient_rich_text, h]

/-- Specification-side view of the extraction call: the JSON value the
model response parses to along the path the handler takes, or `none` when
no extraction call completes with parseable output. -/
def modelRecipe (env : Env) (req : Request) : Option Json :=
  let recipe_text := pyStrip (formGet req "recipe_text")
  if recipe_text ≠ "" then
    match env.generate_content [GenPart.text (textPrompt recipe_text)] with
    | .error _ => none
    | .ok t =>
      match env.json_loads (clean t) with
      | .error _ => none
      | .ok r => some r
  else
    match req.files_images with
    | none => none
    | some files =>
      if files.isEmpty then none
      else
        match env.generate_content (GenPart.text imagePrompt :: imageParts env files) with
        | .error _ => none
        | .ok t =>
          match env.json_loads (clean t) with
          | .error _ => none
          | .ok r => some r
theorem jlookup_setPairs_same (kvs : List (String × Json)) (key : String) (v : Json) :
    jlookup (setPairs kvs key v) key = some v := by
  induction kvs with
  | nil => simp [setPairs, jlookup]
  | cons p rest ih =>
    obtain ⟨k0, v0⟩ := p
    by_cases h0 : k0 = key
    · subst h0
      simp [setPairs, jlookup]
    · simp [setPairs, h0, jlookup, ih]

theorem jlookup_setPairs_other (kvs : List (String × Json)) (key : String) (v : Json)
    (k' : String) (hne : k' ≠ key) :
    jlookup (setPairs kvs key v) k' = jlookup kvs k' := by
  have hne' : key ≠ k' := Ne.symm hne
  induction kvs with
  | nil => simp [setPairs, jlookup, hne']
  | cons p rest ih =>
    obtain ⟨k0, v0⟩ := p
    by_cases h0 : k0 = key
    · subst h0
      simp [setPairs, jlookup, hne']
    · simp only [setPairs, if_neg h0, jlookup]
      split
      · rfl
      · exact ih

theorem setItem_ok_fields {r recipe : Json} {key : String} {v : Json}
    (h : setItem r key v = .ok recipe) :
    getKey recipe key = some v ∧ ∀ k', k' ≠ key → getKey recipe k' = getKey r k' := by
  cases r with
  | obj kvs =>
    simp only [setItem, Except.ok.injEq] at h
    subst h
    exact ⟨jlookup_setPairs_same kvs key v,
      fun k' hk => jlookup_setPairs_other kvs key v k' hk⟩
  | null => simp [setItem] at h
  | bool b => simp [setItem] at h
  | num n => simp [setItem] at h
  | str s => simp [setItem] at h
  | arr xs => simp [setItem] at h

theorem acquire_got_decomp {env : Env} {req : Request} {evs : List Event}
    {recipe : Json} {source : String}
    (h : acquireRecipe env req = (evs, .ok (.got recipe source))) :
    ∃ r0, modelRecipe env req = some r0 ∧
      ((source = "text" ∧ evs = [Event.genTextExtract] ∧
        setItem r0 "isImaginary" (.bool false) = .ok recipe) ∨
       (source = "image" ∧ evs = [Event.genImageExtract, Event.genImaginaryCheck] ∧
        (recipe = r0 ∨ setItem r0 "isImaginary" (.bool true) = .ok recipe))) := by
  simp only [acquireRecipe] at h
  split at h
  case isTrue ht =>
    split at h
    case h_1 e hg => simp at h
    case h_2 t hg =>
      split at h
      case h_1 u hl => simp at h
      case h_2 r0 hl =>
        split at h
        case h_1 f hsi => simp at h
        case h_2 rec hsi =>
          simp only [Prod.mk.injEq, Except.ok.injEq, Acquired.got.injEq] at h
          obtain ⟨he, hrec, hsrc⟩ := h
          subst he
          subst hrec
          subst hsrc
          refine ⟨r0, ?_, .inl ⟨rfl, rfl, hsi⟩⟩
          simp only [modelRecipe, if_pos ht]
          simp [hg, hl]
  case isFalse ht =>
    split at h
    case h_1 hf => simp at h
    case h_2 files hf =>
      split at h
      case isTrue hfe => simp at h
      case isFalse hfe =>
        split at h
        case h_1 e hg => simp at h
        case h_2 t hg =>
          split at h
          case h_1 u hl => simp at h
          case h_2 r0 hl =>
            split at h
            case h_1 e hc => simp at h
            case h_2 ctext hc =>
              split at h
              case isTrue hyes =>
                simp only [List.cons_append, List.nil_append, Prod.mk.injEq,
                  Except.ok.injEq, Acquired.got.injEq] at h
                obtain ⟨he, hrec, hsrc⟩ := h
                subst he
                subst hrec
                subst hsrc
                refine ⟨r0, ?_, .inr ⟨rfl, rfl, .inl rfl⟩⟩
                simp only [modelRecipe, if_neg ht, hf]
                simp [hfe, hg, hl]
              case isFalse hyes =>
                split at h
                case h_1 f hsi => simp at h
                case h_2 rec hsi =>
                  simp only [List.cons_append, List.nil_append, Prod.mk.injEq,
                    Except.ok.injEq, Acquired.got.injEq] at h
                  obtain ⟨he, hrec, hsrc⟩ := h
                  subst he
                  subst hrec
                  subst hsrc
                  refine ⟨r0, ?_, .inr ⟨rfl, rfl, .inr hsi⟩⟩
                  simp only [modelRecipe, if_neg ht, hf]
                  simp [hfe, hg, hl]

theorem acquire_early_decomp {env : Env} {req : Request} {evs : List Event} {r : Resp}
    (h : acquireRecipe env req = (evs, .ok (.early r))) :
    evs = [] ∧
      (r = errorResp 400 "Please provide recipe text or upload images." ∨
       r = errorResp 400 "No images provided") := by
  simp only [acquireRecipe] at h
  split at h
  case isTrue ht =>
    split at h
    case h_1 e hg => simp at h
    case h_2 t hg =>
      split at h
      case h_1 u hl => simp at h
      case h_2 r0 hl =>
        split at h
        case h_1 f hsi => simp at h
        case h_2 rec hsi => simp at h
  case isFalse ht =>
    split at h
    case h_1 hf =>
      simp only [Prod.mk.injEq, Except.ok.injEq, Acquired.early.injEq] at h
      exact ⟨h.1.symm, .inl h.2.symm⟩
    case h_2 files hf =>
      split at h
      case isTrue hfe =>
        simp only [Prod.mk.injEq, Except.ok.injEq, Acquired.early.injEq] at h
        exact ⟨h.1.symm, .inr h.2.symm⟩
      case isFalse hfe =>
        split at h
        case h_1 e hg => simp at h
        case h_2 t hg =>
          split at h
          case h_1 u hl => simp at h
          case h_2 r0 hl =>
            split at h
            case h_1 e hc => simp at h
            case h_2 ctext hc =>
              split at h
              case isTrue hyes => simp at h
              case isFalse hyes =>
                split at h
                case h_1 f hsi => simp at h
                case h_2 rec hsi => simp at h

theorem acquire_evs_forms (env : Env) (req : Request) :
    (acquireRecipe env req).1 = [] ∨
    (acquireRecipe env req).1 = [Event.genTextExtract] ∨
    (acquireRecipe env req).1 = [Event.genImageExtract] ∨
    (acquireRecipe env req).1 = [Event.genImageExtract, Event.genImaginaryCheck] := by
  simp only [acquireRecipe]
  split
  · split
    · simp
    · split
      · simp
      · split
        · simp
        · simp
  · split
    · simp
    · split
      · simp
      · split
        · simp
        · split
          · simp
          · split
            · simp
            · split
              · simp
              · split
                · simp
                · simp

theorem success_decomp {env : Env} {req : Request}
    (h : (extract_recipe env req).2.status = 200) :
    ∃ evs recipe source pc nr b,
      acquireRecipe env req = (evs, .ok (.got recipe source)) ∧
      notionConfigured env = true ∧
      pageContent recipe (pyStrip (formGet req "source_link")) = .ok pc ∧
      env.pages_create (mkArgs (env.notion_database_id.getD "") pc) = .ok nr ∧
      finishBody recipe pc source nr = .ok b ∧
      extract_recipe env req = (evs ++ [Event.pagesCreate], ⟨200, b⟩) := by
  cases htb0 : tryBody env req with
  | mk evs res =>
    rw [extract_recipe] at h
    rw [htb0] at h
    cases res with
    | error f =>
      cases f <;> simp [handleExcept, errorResp] at h
    | ok r =>
      simp only [handleExcept] at h
      have htb1 := htb0
      simp only [tryBody] at htb1
      split at htb1
      case h_1 evs' f heq => simp at htb1
      case h_2 evs' r' heq =>
        simp only [Prod.mk.injEq, Except.ok.injEq] at htb1
        obtain ⟨hrr, hearly⟩ := acquire_early_decomp heq
        rw [← htb1.2] at h
        rcases hearly with he | he <;> rw [he] at h <;> simp [errorResp] at h
      case h_3 evs' recipe source heq =>
        simp only [runSave] at htb1
        split at htb1
        case isTrue hconf =>
          split at htb1
          case h_1 f hpc => simp at htb1
          case h_2 pc hpc =>
            split at htb1
            case h_1 e hn => simp at htb1
            case h_2 nr hn =>
              split at htb1
              case h_1 f hfb => simp at htb1
              case h_2 b hfb =>
                simp only [Prod.mk.injEq, Except.ok.injEq] at htb1
                obtain ⟨he, hr⟩ := htb1
                refine ⟨evs', recipe, source, pc, nr, b, heq, hconf, hpc, hn, hfb, ?_⟩
                rw [extract_recipe]
                rw [htb0, he, hr]
                rfl
        case isFalse hconf =>
          simp only [Prod.mk.injEq, Except.ok.injEq] at htb1
          rw [← htb1.2] at h
          simp [errorResp] at h

theorem finishBody_ok_shape {recipe : Json} {pc : PageContent} {source : String}
    {nr b : Json} (h : finishBody recipe pc source nr = .ok b) :
    ∃ all1 all_ingredients items flat_steps notion_url rec,
      pyAdd pc.main_list pc.sauce_list = .ok all1 ∧
      pyAdd all1 pc.spice_list = .ok all_ingredients ∧
      pyIter pc.steps = .ok items ∧
      mapME (fun s => if isStrJ s then .ok s else jget s "instruction" (.str "")) items
        = .ok flat_steps ∧
      jget nr "url" (.str "") = .ok notion_url ∧
      dictSpread recipe [("ingredients", all_ingredients), ("steps", .arr flat_steps)]
        = .ok rec ∧
      b = .obj [("success", .bool true), ("isImaginary", pc.is_imaginary),
        ("source", .str source), ("notion_url", notion_url), ("recipe", rec)] := by
  simp only [finishBody] at h
  split at h
  case h_1 f h1 => simp at h
  case h_2 all1 h1 =>
    split at h
    case h_1 f h2 => simp at h
    case h_2 all_ingredients h2 =>
      split at h
      case h_1 f h3 => simp at h
      case h_2 items h3 =>
        split at h
        case h_1 f h4 => simp at h
        case h_2 flat_steps h4 =>
          split at h
          case h_1 f h5 => simp at h
          case h_2 notion_url h5 =>
            split at h
            case h_1 f h6 => simp at h
            case h_2 rec h6 =>
              rw [Except.ok.injEq] at h
              exact ⟨all1, all_ingredients, items, flat_steps, notion_url, rec,
                h1, h2, h3, h4, h5, h6, h.symm⟩

theorem pageContent_ok_fields {recipe : Json} {sl : String} {pc : PageContent}
    (h : pageContent recipe sl = .ok pc) :
    jget recipe "isImaginary" (.bool false) = .ok pc.is_imaginary ∧
    ∃ ingredients, jget recipe "ingredients" (.obj []) = .ok ingredients ∧
      splitIngredients ingredients = .ok (pc.main_list, pc.sauce_list, pc.spice_list) ∧
      jget recipe "steps" (.arr []) = .ok pc.steps := by
  simp only [pageContent] at h
  split at h
  case h_1 f h1 => simp at h
  case h_2 is_imaginary h1 =>
    split at h
    case h_1 f h2 => simp at h
    case h_2 ingredients h2 =>
      split at h
      case h_1 f h3 => simp at h
      case h_2 steps h3 =>
        split at h
        case h_1 f h4 => simp at h
        case h_2 main_list sauce_list spice_list h4 =>
          split at h
          case h_1 f h5 => simp at h
          case h_2 cookVal h5 =>
            split at h
            case h_1 f h6 => simp at h
            case h_2 mainSec h6 =>
              split at h
              case h_1 f h7 => simp at h
              case h_2 sauceSec h7 =>
                split at h
                case h_1 f h8 => simp at h
                case h_2 spiceSec h8 =>
                  split at h
                  case h_1 f h9 => simp at h
                  case h_2 stepSec h9 =>
                    split at h
                    case h_1 f h10 => simp at h
                    case h_2 title0 h10 =>
                      rw [Except.ok.injEq] at h
                      subst h
                      exact ⟨h1, ingredients, h2, h4, h3⟩

theorem tryBody_ok_cases {env : Env} {req : Request} {evs : List Event} {r : Resp}
    (h : tryBody env req = (evs, .ok r)) :
    (∃ r', acquireRecipe env req = (evs, .ok (.early r')) ∧ r = r') ∨
    (∃ recipe source, acquireRecipe env req = (evs, .ok (.got recipe source)) ∧
      notionConfigured env = false ∧ r = errorResp 500 "Notion not configured") ∨
    (∃ evs' recipe source pc nr b,
      acquireRecipe env req = (evs', .ok (.got recipe source)) ∧
      notionConfigured env = true ∧
      pageContent recipe (pyStrip (formGet req "source_link")) = .ok pc ∧
      env.pages_create (mkArgs (env.notion_database_id.getD "") pc) = .ok nr ∧
      finishBody recipe pc source nr = .ok b ∧
      evs = evs' ++ [Event.pagesCreate] ∧ r = ⟨200, b⟩) := by
  simp only [tryBody] at h
  split at h
  case h_1 evs' f heq => simp at h
  case h_2 evs' r' heq =>
    simp only [Prod.mk.injEq, Except.ok.injEq] at h
    obtain ⟨he, hr⟩ := h
    subst he
    exact .inl ⟨r', heq, hr.symm⟩
  case h_3 evs' recipe source heq =>
    simp only [runSave] at h
    split at h
    case isTrue hconf =>
      split at h
      case h_1 f hpc => simp at h
      case h_2 pc hpc =>
        split at h
        case h_1 e hn => simp at h
        case h_2 nr hn =>
          split at h
          case h_1 f hfb => simp at h
          case h_2 b hfb =>
            simp only [Prod.mk.injEq, Except.ok.injEq] at h
            obtain ⟨he, hr⟩ := h
            exact .inr (.inr ⟨evs', recipe, source, pc, nr, b, heq, hconf, hpc, hn, hfb,
              he.symm, hr.symm⟩)
    case isFalse hconf =>
      simp only [Prod.mk.injEq, Except.ok.injEq] at h
      obtain ⟨he, hr⟩ := h
      subst he
      exact .inr (.inl ⟨recipe, source, heq, by simpa using hconf, hr.symm⟩)

/-- The retry response of the `except json.JSONDecodeError` clause. -/
def retryResp : Resp :=
  errorResp 500 "Could not parse recipe. Try again or rephrase the text."

theorem runSave_evs (env : Env) (req : Request) (recipe : Json) (source : String)
    (evs : List Event) :
    (runSave env req recipe source evs).1 = evs ∨
    (runSave env req recipe source evs).1 = evs ++ [Event.pagesCreate] := by
  simp only [runSave]
  split
  · split
    · simp
    · split
      · simp
      · split
        · simp
        · simp
  · simp

/-- Every response of the handler is either the success response built by
`finishBody` (after a `pages.create` call), or one of the five error
responses: the two input-validation responses, the configuration response,
the parse-retry response (exactly when the failure was `JSONDecodeError`),
or the generic `str(e)` response for a non-parse exception. -/
theorem resp_master (env : Env) (req : Request) :
    (∃ evs' b, extract_recipe env req = (evs' ++ [Event.pagesCreate], ⟨200, b⟩) ∧
      ∃ imag src nurl rec, b = .obj [("success", .bool true), ("isImaginary", imag),
        ("source", .str src), ("notion_url", nurl), ("recipe", rec)]) ∨
    ((extract_recipe env req).2 = errorResp 400 "Please provide recipe text or upload images." ∨
     (extract_recipe env req).2 = errorResp 400 "No images provided" ∨
     (extract_recipe env req).2 = errorResp 500 "Notion not configured" ∨
     ((extract_recipe env req).2 = retryResp ∧
       (tryBody env req).2 = .error .jsonDecodeError) ∨
     (∃ f, f ≠ Failure.jsonDecodeError ∧ (tryBody env req).2 = .error f ∧
       (extract_recipe env req).2 = errorResp 500 (strOfFailure f))) := by
  cases htb : tryBody env req with
  | mk evs res =>
    have hext : extract_recipe env req = (evs, handleExcept res) := by
      rw [extract_recipe, htb]
    cases res with
    | error f =>
      cases f with
      | jsonDecodeError =>
        right
        refine .inr (.inr (.inr (.inl ⟨?_, rfl⟩)))
        rw [hext]
        rfl
      | pyError m =>
        right
        refine .inr (.inr (.inr (.inr ⟨.pyError m, by simp, rfl, ?_⟩)))
        rw [hext]
        rfl
      | sdkError m =>
        right
        refine .inr (.inr (.inr (.inr ⟨.sdkError m, by simp, rfl, ?_⟩)))
        rw [hext]
        rfl
    | ok r =>
      rcases tryBody_ok_cases htb with
        ⟨r', hacq, rfl⟩ |
        ⟨recipe, source, hacq, hconf, rfl⟩ |
        ⟨evs', recipe, source, pc, nr, b, hacq, hconf, hpc, hn, hfb, hevs, rfl⟩
      · obtain ⟨hevs0, hr⟩ := acquire_early_decomp hacq
        right
        rcases hr with rfl | rfl
        · exact .inl (by rw [hext]; rfl)
        · exact .inr (.inl (by rw [hext]; rfl))
      · right
        exact .inr (.inr (.inl (by rw [hext]; rfl)))
      · left
        obtain ⟨a1, ai, its, fs, nurl, rec, -, -, -, -, -, -, hb⟩ := finishBody_ok_shape hfb
        subst hevs
        exact ⟨evs', b, by rw [hext]; rfl, pc.is_imaginary, source, nurl, rec, hb⟩

theorem trace_forms (env : Env) (req : Request) :
    (extract_recipe env req).1 = [] ∨
    (extract_recipe env req).1 = [Event.genTextExtract] ∨
    (extract_recipe env req).1 = [Event.genImageExtract] ∨
    (extract_recipe env req).1 = [Event.genImageExtract, Event.genImaginaryCheck] ∨
    (extract_recipe env req).1 = [Event.genTextExtract, Event.pagesCreate] ∨
    (extract_recipe env req).1 = [Event.genImageExtract, Event.genImaginaryCheck,
      Event.pagesCreate] := by
  cases hacq : acquireRecipe env req with
  | mk evs res =>
    have hforms := acquire_evs_forms env req
    rw [hacq] at hforms
    have hext1 : (extract_recipe env req).1 = (tryBody env req).1 := by
      rw [extract_recipe]
    rw [hext1]
    cases res with
    | error f =>
      have : (tryBody env req).1 = evs := by simp [tryBody, hacq]
      rw [this]
      tauto
    | ok a =>
      cases a with
      | early r =>
        have : (tryBody env req).1 = evs := by simp [tryBody, hacq]
        rw [this]
        tauto
      | got recipe source =>
        have hrs : (tryBody env req).1 = (runSave env req recipe source evs).1 := by
          simp [tryBody, hacq]
        rw [hrs]
        obtain ⟨r0, hm, hcase⟩ := acquire_got_decomp hacq
        rcases runSave_evs env req recipe source evs with hev | hev <;> rw [hev] <;>
          rcases hcase with ⟨-, rfl, -⟩ | ⟨-, rfl, -⟩ <;> simp

/-- A well-formed model recipe used by concrete witnesses. -/
def rBase : Json := .obj [("title", .str "T"),
  ("ingredients", .obj [("main", .arr [.str "1 cup flour (120g)"]), ("sauce", .arr []),
    ("spicesAndHerbs", .arr [.str "salt"])]),
  ("steps", .arr [.obj [("instruction", .str "Mix"), ("ingredients", .arr [.str "flour"])]]),
  ("cookTime", .str "10 min"), ("servings", .str "2"), ("lang", .str "en")]

/-- A benign environment: the model answers, its output parses to `rBase`,
Notion is configured and page creation succeeds. -/
def envBase : Env :=
  { generate_content := fun _ => .ok "model output",
    json_loads := fun _ => .ok rBase,
    b64encode := fun s => s,
    pages_create := fun _ => .ok (.obj [("url", .str "https://notion.so/p")]),
    notion_token := some "tok",
    notion_database_id := some "db" }

/-- A text-mode request. -/
def reqText : Request := { form := [("recipe_text", " pasta ")], files_images := none }

/-- A request with neither text nor images. -/
def reqNoInput : Request := { form := [], files_images := none }

/-- An image-mode request. -/
def reqImage : Request := { form := [], files_images := some [⟨"image/png", "bytes"⟩] }

/-- The environment where the model SDK raises. -/
def envGenFail : Env := { envBase with generate_content := fun _ => .error "boom" }

/-- The environment where the Notion SDK raises. -/
def envNotionFail : Env := { envBase with pages_create := fun _ => .error "notion down" }

/-- The environment where the model output does not parse. -/
def envParseFail : Env := { envBase with json_loads := fun _ => .error () }

/-- Claim C2: every exception raised inside the handler body is caught and
converted into a JSON response with an `error` field and a non-success
(500) status; no exception escapes (the handler is a total function whose
`except` clauses map every `Failure` to an error response). -/
theorem c2_exceptions_converted (env : Env) (req : Request) (evs : List Event) (f : Failure)
    (h : tryBody env req = (evs, .error f)) :
    (extract_recipe env req).2.status = 500 ∧
    hasKey (extract_recipe env req).2.body "error" = true := by
  have hext : extract_recipe env req = (evs, handleExcept (.error f)) := by
    rw [extract_recipe, h]
  rw [hext]
  cases f <;> simp [handleExcept, errorResp, hasKey, jlookup]

theorem c2_witness :
    tryBody envGenFail reqText = ([Event.genTextExtract], .error (.sdkError "boom")) ∧
    (extract_recipe envGenFail reqText).2.status = 500 ∧
    hasKey (extract_recipe envGenFail reqText).2.body "error" = true :=
  ⟨rfl, c2_exceptions_converted envGenFail reqText [Event.genTextExtract] (.sdkError "boom") rfl⟩

/-- Claim C3: the response is always exactly one of the two shapes: a
success body with `success: true` and a `recipe` field (and no `error`
field), or an error body with an `error` field (and no `success` or
`recipe` field). -/
theorem c3_response_shape (env : Env) (req : Request) :
    (getKey (extract_recipe env req).2.body "success" = some (.bool true) ∧
     hasKey (extract_recipe env req).2.body "recipe" = true ∧
     hasKey (extract_recipe env req).2.body "error" = false) ∨
    (hasKey (extract_recipe env req).2.body "error" = true ∧
     hasKey (extract_recipe env req).2.body "success" = false ∧
     hasKey (extract_recipe env req).2.body "recipe" = false) := by
  rcases resp_master env req with ⟨evs', b, hb, imag, src, nurl, rec, rfl⟩ | herr
  · left
    rw [hb]
    simp [hasKey, getKey, jlookup]
  · right
    rcases herr with h | h | h | ⟨h, -⟩ | ⟨f, -, -, h⟩ <;> rw [h] <;>
      simp [errorResp, retryResp, hasKey, getKey, jlookup]

/-- Claim C7: on every request that ends in an error response, no external
call was retried (the trace of SDK calls has no duplicates) and no partial
success is reported (the body has no `success` and no `recipe` field). -/
theorem c7_no_retry_no_partial (env : Env) (req : Request)
    (h : hasKey (extract_recipe env req).2.body "error" = true) :
    (extract_recipe env req).1.Nodup ∧
    hasKey (extract_recipe env req).2.body "success" = false ∧
    hasKey (extract_recipe env req).2.body "recipe" = false := by
  refine ⟨?_, ?_⟩
  · rcases trace_forms env req with h1 | h1 | h1 | h1 | h1 | h1 <;> rw [h1] <;> decide
  · rcases resp_master env req with ⟨evs', b, hb, imag, src, nurl, rec, rfl⟩ | herr
    · rw [hb] at h
      simp [hasKey, jlookup] at h
    · rcases herr with h2 | h2 | h2 | ⟨h2, -⟩ | ⟨f, -, -, h2⟩ <;> rw [h2] <;>
        simp [errorResp, retryResp, hasKey, jlookup]

theorem c7_witness :
    hasKey (extract_recipe envNotionFail reqText).2.body "error" = true ∧
    ((extract_recipe envNotionFail reqText).1.Nodup ∧
     hasKey (extract_recipe envNotionFail reqText).2.body "success" = false ∧
     hasKey (extract_recipe envNotionFail reqText).2.body "recipe" = false) :=
  ⟨rfl, c7_no_retry_no_partial envNotionFail reqText rfl⟩

/-- Claim C1 (amended): among exceptions caught by the handler, only
`json.JSONDecodeError` is distinguished — it alone maps to the fixed retry
message — and every other exception maps to the generic
`jsonify({'error': str(e)}), 500` response.  In addition, the two
input-validation checks and the missing-Notion-configuration check return
their own fixed error messages (with statuses 400, 400 and 500), so the
parse failure is not the only failure kind whose response differs from the
generic one. -/
theorem c1_exception_mapping (env : Env) (req : Request) :
    (∀ evs, tryBody env req = (evs, .error .jsonDecodeError) →
      (extract_recipe env req).2 = retryResp) ∧
    (∀ evs f, f ≠ Failure.jsonDecodeError → tryBody env req = (evs, .error f) →
      (extract_recipe env req).2 = errorResp 500 (strOfFailure f)) ∧
    (hasKey (extract_recipe env req).2.body "error" = true →
      ((extract_recipe env req).2 = errorResp 400 "Please provide recipe text or upload images." ∨
       (extract_recipe env req).2 = errorResp 400 "No images provided" ∨
       (extract_recipe env req).2 = errorResp 500 "Notion not configured" ∨
       ((extract_recipe env req).2 = retryResp ∧
         (tryBody env req).2 = .error .jsonDecodeError) ∨
       (∃ f, f ≠ Failure.jsonDecodeError ∧ (tryBody env req).2 = .error f ∧
         (extract_recipe env req).2 = errorResp 500 (strOfFailure f)))) := by
  refine ⟨?_, ?_, ?_⟩
  · intro evs h
    rw [extract_recipe, h]
    rfl
  · intro evs f hne h
    rw [extract_recipe, h]
    cases f with
    | jsonDecodeError => exact absurd rfl hne
    | pyError m => rfl
    | sdkError m => rfl
  · intro h
    rcases resp_master env req with ⟨evs', b, hb, imag, src, nurl, rec, rfl⟩ | herr
    · rw [hb] at h
      simp [hasKey, jlookup] at h
    · exact herr

theorem c1_witness :
    (extract_recipe envParseFail reqText).2 = retryResp ∧
    (extract_recipe envGenFail reqText).2 = errorResp 500 "boom" :=
  ⟨(c1_exception_mapping envParseFail reqText).1 [Event.genTextExtract] rfl,
   (c1_exception_mapping envGenFail reqText).2.1 [Event.genTextExtract]
     (.sdkError "boom") (by simp) rfl⟩

/-- Claim C1 counterexample: a request with neither text nor images fails,
and its response is neither the parse-retry response nor the generic
status-500 response: it is a distinct fixed message with status 400.  So
the parse failure is not the only failure kind distinguished from the
generic error response. -/
theorem c1_counterexample :
    (extract_recipe envBase reqNoInput).2 =
      errorResp 400 "Please provide recipe text or upload images." ∧
    (extract_recipe envBase reqNoInput).2.status ≠ 500 ∧
    getKey (extract_recipe envBase reqNoInput).2.body "error" ≠
      some (.str "Could not parse recipe. Try again or rephrase the text.") := by
  refine ⟨rfl, by decide, ?_⟩
  intro hcontra
  have heval : getKey (extract_recipe envBase reqNoInput).2.body "error" =
      some (.str "Please provide recipe text or upload images.") := rfl
  rw [heval] at hcontra
  simp at hcontra

theorem jget_of_getKey {r : Json} {k : String} {v : Json} (d : Json)
    (h : getKey r k = some v) : jget r k d = .ok v := by
  cases r <;> simp [getKey] at h
  case obj kvs => simp [jget, h]

/-- Claim C6: whenever the Notion page-creation call appears in the trace,
it is the last call, an extraction call to the generative model appears
before it, and the output of that extraction call parsed successfully. -/
theorem c6_model_parsed_before_notion (env : Env) (req : Request)
    (h : Event.pagesCreate ∈ (extract_recipe env req).1) :
    (∃ pre, (extract_recipe env req).1 = pre ++ [Event.pagesCreate] ∧
      (Event.genTextExtract ∈ pre ∨ Event.genImageExtract ∈ pre) ∧
      Event.pagesCreate ∉ pre) ∧
    (∃ r0, modelRecipe env req = some r0) := by
  have hext1 : (extract_recipe env req).1 = (tryBody env req).1 := by rw [extract_recipe]
  rw [hext1] at h ⊢
  cases hacq : acquireRecipe env req with
  | mk evs res =>
    have hforms := acquire_evs_forms env req
    simp only [hacq] at hforms
    cases res with
    | error f =>
      have htr : (tryBody env req).1 = evs := by simp [tryBody, hacq]
      rw [htr] at h
      rcases hforms with h1 | h1 | h1 | h1 <;> rw [h1] at h <;> simp at h
    | ok a =>
      cases a with
      | early r =>
        have htr : (tryBody env req).1 = evs := by simp [tryBody, hacq]
        rw [htr] at h
        rcases hforms with h1 | h1 | h1 | h1 <;> rw [h1] at h <;> simp at h
      | got recipe source =>
        obtain ⟨r0, hm, hcase⟩ := acquire_got_decomp hacq
        have htr : (tryBody env req).1 = (runSave env req recipe source evs).1 := by
          simp [tryBody, hacq]
        rw [htr] at h ⊢
        refine ⟨?_, ⟨r0, hm⟩⟩
        rcases runSave_evs env req recipe source evs with hev | hev
        · rw [hev] at h
          rcases hcase with ⟨-, rfl, -⟩ | ⟨-, rfl, -⟩ <;> simp at h
        · rw [hev]
          refine ⟨evs, rfl, ?_, ?_⟩
          · rcases hcase with ⟨-, rfl, -⟩ | ⟨-, rfl, -⟩
            · left
              simp
            · right
              simp
          · rcases hcase with ⟨-, rfl, -⟩ | ⟨-, rfl, -⟩ <;> decide

theorem c6_witness :
    Event.pagesCreate ∈ (extract_recipe envBase reqText).1 ∧
    ((∃ pre, (extract_recipe envBase reqText).1 = pre ++ [Event.pagesCreate] ∧
      (Event.genTextExtract ∈ pre ∨ Event.genImageExtract ∈ pre) ∧
      Event.pagesCreate ∉ pre) ∧
     (∃ r0, modelRecipe envBase reqText = some r0)) :=
  ⟨by decide, c6_model_parsed_before_notion envBase reqText (by decide)⟩

theorem text_trace (env : Env) (req : Request)
    (ht : pyStrip (formGet req "recipe_text") ≠ "") :
    (extract_recipe env req).1 = [Event.genTextExtract] ∨
    (extract_recipe env req).1 = [Event.genTextExtract, Event.pagesCreate] := by
  cases hacq : acquireRecipe env req with
  | mk evs res =>
    have hevs : evs = [Event.genTextExtract] := by
      have h1 : (acquireRecipe env req).1 = [Event.genTextExtract] := by
        simp only [acquireRecipe, if_pos ht]
        split
        · rfl
        · split
          · rfl
          · split <;> rfl
      rw [hacq] at h1
      simpa using h1
    subst hevs
    have hext1 : (extract_recipe env req).1 = (tryBody env req).1 := by rw [extract_recipe]
    rw [hext1]
    cases res with
    | error f =>
      left
      simp [tryBody, hacq]
    | ok a =>
      cases a with
      | early r =>
        left
        simp [tryBody, hacq]
      | got recipe source =>
        have htr : (tryBody env req).1 =
            (runSave env req recipe source [Event.genTextExtract]).1 := by
          simp [tryBody, hacq]
        rw [htr]
        exact runSave_evs env req recipe source [Event.genTextExtract]

/-- Claim C8: when the stripped `recipe_text` form field is non-empty the
handler runs in text mode only: the response and trace do not depend on
the uploaded images at all, no image-mode model call is made, and a
successful response reports `source = "text"` and `isImaginary = false`
regardless of what the model returned. -/
theorem c8_text_mode (env : Env) (form : List (String × String))
    (files1 files2 : Option (List ImageFile))
    (h : pyStrip (formGet ⟨form, files1⟩ "recipe_text") ≠ "") :
    extract_recipe env ⟨form, files1⟩ = extract_recipe env ⟨form, files2⟩ ∧
    Event.genImageExtract ∉ (extract_recipe env ⟨form, files1⟩).1 ∧
    Event.genImaginaryCheck ∉ (extract_recipe env ⟨form, files1⟩).1 ∧
    ((extract_recipe env ⟨form, files1⟩).2.status = 200 →
      getKey (extract_recipe env ⟨form, files1⟩).2.body "source" = some (.str "text") ∧
      getKey (extract_recipe env ⟨form, files1⟩).2.body "isImaginary" = some (.bool false)) := by
  have h2 : pyStrip (formGet ⟨form, files2⟩ "recipe_text") ≠ "" := h
  refine ⟨?_, ?_, ?_, ?_⟩
  · simp only [extract_recipe, tryBody, acquireRecipe]
    rw [if_pos h, if_pos h2]
    rfl
  · rcases text_trace env ⟨form, files1⟩ h with htr | htr <;> rw [htr] <;> decide
  · rcases text_trace env ⟨form, files1⟩ h with htr | htr <;> rw [htr] <;> decide
  · intro hs
    obtain ⟨evs, recipe, source, pc, nr, b, hacq, hconf, hpc, hn, hfb, hext⟩ :=
      success_decomp hs
    obtain ⟨r0, hm, hcase⟩ := acquire_got_decomp hacq
    have hsrc : source = "text" ∧ setItem r0 "isImaginary" (.bool false) = .ok recipe := by
      rcases hcase with ⟨hs1, hs2, hs3⟩ | ⟨hs1, hs2, hs3⟩
      · exact ⟨hs1, hs3⟩
      · subst hs2
        rcases text_trace env ⟨form, files1⟩ h with htr | htr <;>
          rw [hext] at htr <;> simp at htr
    obtain ⟨hsrc1, hsi⟩ := hsrc
    subst hsrc1
    obtain ⟨a1, ai, its, fs, nurl, rec, -, -, -, -, -, -, hb⟩ := finishBody_ok_shape hfb
    have himag : pc.is_imaginary = .bool false := by
      have hj := (pageContent_ok_fields hpc).1
      have hk := (setItem_ok_fields hsi).1
      have hj2 := jget_of_getKey (.bool false) hk
      rw [hj2] at hj
      exact (Except.ok.injEq _ _ ▸ hj).symm
    rw [hext]
    subst hb
    rw [himag]
    constructor
    · simp [getKey, jlookup]
    · simp [getKey, jlookup]

theorem c8_witness :
    pyStrip (formGet ⟨[("recipe_text", " pasta ")], none⟩ "recipe_text") ≠ "" ∧
    extract_recipe envBase ⟨[("recipe_text", " pasta ")], none⟩ =
      extract_recipe envBase ⟨[("recipe_text", " pasta ")], some [⟨"image/png", "b"⟩]⟩ ∧
    getKey (extract_recipe envBase ⟨[("recipe_text", " pasta ")], none⟩).2.body "source" =
      some (.str "text") ∧
    getKey (extract_recipe envBase ⟨[("recipe_text", " pasta ")], none⟩).2.body "isImaginary" =
      some (.bool false) := by
  have h : pyStrip (formGet ⟨[("recipe_text", " pasta ")], none⟩ "recipe_text") ≠ "" := by
    decide
  have hc := c8_text_mode envBase [("recipe_text", " pasta ")] none (some [⟨"image/png", "b"⟩]) h
  exact ⟨h, hc.1, (hc.2.2.2 (by rfl)).1, (hc.2.2.2 (by rfl)).2⟩

/-- Specification-side view: the instruction carried by one step of the
model's steps list (`s if isinstance(s, str) else s.get("instruction", "")`). -/
def stepFlat : Json → Json
  | .str t => .str t
  | j => (getKey j "instruction").getD (.str "")

/-- Specification-side view: the `recipe` object of the response body. -/
def responseRecipe (env : Env) (req : Request) : Json :=
  (getKey (extract_recipe env req).2.body "recipe").getD .null

theorem jget_ok_obj {r : Json} {k : String} {d v : Json} (h : jget r k d = .ok v) :
    ∃ kvs, r = .obj kvs ∧ v = (jlookup kvs k).getD d := by
  cases r <;> simp [jget] at h
  case obj kvs => exact ⟨kvs, rfl, h.symm⟩

theorem mapME_flat_steps_ok {l out : List Json}
    (h : mapME (fun s => if isStrJ s then .ok s else jget s "instruction" (.str "")) l
      = .ok out) :
    out = l.map stepFlat := by
  induction l generalizing out with
  | nil =>
    simp only [mapME, Except.ok.injEq] at h
    simp [← h]
  | cons s rest ih =>
    simp only [mapME] at h
    split at h
    case h_1 f hy => simp at h
    case h_2 y hy =>
      split at h
      case h_1 f hys => simp at h
      case h_2 ys hys =>
        rw [Except.ok.injEq] at h
        subst h
        have hys' := ih hys
        subst hys'
        have hy' : y = stepFlat s := by
          by_cases hstr : isStrJ s = true
          · rw [if_pos hstr] at hy
            cases s with
            | str t =>
              rw [Except.ok.injEq] at hy
              simp [stepFlat, ← hy]
            | null => simp [isStrJ] at hstr
            | bool b => simp [isStrJ] at hstr
            | num n => simp [isStrJ] at hstr
            | arr xs => simp [isStrJ] at hstr
            | obj kvs => simp [isStrJ] at hstr
          · rw [if_neg hstr] at hy
            obtain ⟨kvs, rfl, hval⟩ := jget_ok_obj hy
            simp [stepFlat, getKey, hval]
        rw [hy']
        rfl

/-- Claim C9: on every successful response, the recipe's `ingredients`
field is the concatenation of the model's `main`, `sauce` and
`spicesAndHerbs` lists (or the model's flat list followed by two empty
lists when it returned a flat list), and its `steps` field is the list of
per-step instructions, one per step, in the original order. -/
theorem c9_flatten (env : Env) (req : Request) (r0 : Json)
    (hm : modelRecipe env req = some r0)
    (hs : (extract_recipe env req).2.status = 200) :
    (∀ xs, getKey r0 "ingredients" = some (.arr xs) →
      getKey (responseRecipe env req) "ingredients" = some (.arr (xs ++ [] ++ []))) ∧
    (∀ ikvs ma sa sp, getKey r0 "ingredients" = some (.obj ikvs) →
      (jlookup ikvs "main").getD (.arr []) = .arr ma →
      (jlookup ikvs "sauce").getD (.arr []) = .arr sa →
      (jlookup ikvs "spicesAndHerbs").getD (.arr []) = .arr sp →
      getKey (responseRecipe env req) "ingredients" = some (.arr (ma ++ sa ++ sp))) ∧
    (∀ ss, getKey r0 "steps" = some (.arr ss) →
      getKey (responseRecipe env req) "steps" = some (.arr (ss.map stepFlat))) := by
  obtain ⟨evs, recipe, source, pc, nr, b, hacq, hconf, hpc, hn, hfb, hext⟩ :=
    success_decomp hs
  obtain ⟨r0', hm', hcase⟩ := acquire_got_decomp hacq
  rw [hm] at hm'
  have hr0 : r0' = r0 := by simpa using hm'.symm
  subst hr0
  have hpres : ∀ k, k ≠ "isImaginary" → getKey recipe k = getKey r0' k := by
    rcases hcase with ⟨-, -, hsi⟩ | ⟨-, -, himg⟩
    · exact fun k hk => (setItem_ok_fields hsi).2 k hk
    · rcases himg with rfl | hsi
      · intro k _
        rfl
      · exact fun k hk => (setItem_ok_fields hsi).2 k hk
  obtain ⟨hj_imag, ingredients, hj_ing, hsplit, hj_steps⟩ := pageContent_ok_fields hpc
  obtain ⟨all1, ai, its, fs, nurl, rec, hadd1, hadd2, hiter, hmapme, hurl, hspread, hb⟩ :=
    finishBody_ok_shape hfb
  obtain ⟨kvs, hrobj, hingval⟩ := jget_ok_obj hj_ing
  have hrr : responseRecipe env req = rec := by
    rw [responseRecipe, hext]
    subst hb
    simp [getKey, jlookup]
  have hrecval : rec = .obj (setPairs (setPairs kvs "ingredients" ai) "steps" (.arr fs)) := by
    rw [hrobj] at hspread
    simp only [dictSpread, List.foldl, Except.ok.injEq] at hspread
    exact hspread.symm
  have hrec_ing : getKey rec "ingredients" = some ai := by
    rw [hrecval]
    simp only [getKey]
    rw [jlookup_setPairs_other _ _ _ _ (by simp), jlookup_setPairs_same]
  have hrec_steps : getKey rec "steps" = some (.arr fs) := by
    rw [hrecval]
    simp only [getKey]
    rw [jlookup_setPairs_same]
  have hing_eq : getKey recipe "ingredients" = getKey r0' "ingredients" :=
    hpres "ingredients" (by simp)
  have hsteps_eq : getKey recipe "steps" = getKey r0' "steps" :=
    hpres "steps" (by simp)
  have hing_rec : ingredients = (getKey r0' "ingredients").getD (.obj []) := by
    rw [← hing_eq, hrobj]
    simp only [getKey]
    exact hingval
  have hsteps_val : pc.steps = (getKey r0' "steps").getD (.arr []) := by
    obtain ⟨kvs2, hrobj2, hval2⟩ := jget_ok_obj hj_steps
    rw [← hsteps_eq, hrobj2]
    simp only [getKey]
    rw [hrobj] at hrobj2
    have hk : kvs2 = kvs := by simpa using hrobj2.symm
    rw [hval2, hk]
  refine ⟨?_, ?_, ?_⟩
  · intro xs hxs
    rw [hxs] at hing_rec
    simp only [Option.getD_some] at hing_rec
    rw [hing_rec] at hsplit
    simp only [splitIngredients, Except.ok.injEq, Prod.mk.injEq] at hsplit
    obtain ⟨hmn, hsc, hsp⟩ := hsplit
    rw [← hmn, ← hsc] at hadd1
    simp only [pyAdd, Except.ok.injEq] at hadd1
    rw [← hadd1, ← hsp] at hadd2
    simp only [pyAdd, Except.ok.injEq] at hadd2
    rw [hrr, hrec_ing, ← hadd2]
  · intro ikvs ma sa sp hobj hma hsa hsp
    rw [hobj] at hing_rec
    simp only [Option.getD_some] at hing_rec
    rw [hing_rec] at hsplit
    simp only [splitIngredients, jget, hma, hsa, hsp, Except.ok.injEq, Prod.mk.injEq] at hsplit
    obtain ⟨hmn, hsc, hspc⟩ := hsplit
    rw [← hmn, ← hsc] at hadd1
    simp only [pyAdd, Except.ok.injEq] at hadd1
    rw [← hadd1, ← hspc] at hadd2
    simp only [pyAdd, Except.ok.injEq] at hadd2
    rw [hrr, hrec_ing, ← hadd2]
  · intro ss hss
    rw [hss] at hsteps_val
    simp only [Option.getD_some] at hsteps_val
    rw [hsteps_val] at hiter
    simp only [pyIter, Except.ok.injEq] at hiter
    subst hiter
    have hflat := mapME_flat_steps_ok hmapme
    rw [hrr, hrec_steps, hflat]

theorem c9_witness :
    getKey (responseRecipe envBase reqText) "ingredients" =
      some (.arr [.str "1 cup flour (120g)", .str "salt"]) ∧
    getKey (responseRecipe envBase reqText) "steps" = some (.arr [.str "Mix"]) :=
  ⟨(c9_flatten envBase reqText rBase rfl rfl).2.1
      [("main", .arr [.str "1 cup flour (120g)"]), ("sauce", .arr []),
       ("spicesAndHerbs", .arr [.str "salt"])]
      [.str "1 cup flour (120g)"] [] [.str "salt"] rfl rfl rfl rfl,
   (c9_flatten envBase reqText rBase rfl rfl).2.2
      [.obj [("instruction", .str "Mix"), ("ingredients", .arr [.str "flour"])]] rfl⟩

/-- A model output whose `isImaginary` flag is `true`, used to show the
handler modifies the record in text mode. -/
def rC4 : Json := .obj [("title", .str "T"), ("isImaginary", .bool true),
  ("ingredients", .obj [("main", .arr [.str "x"]), ("sauce", .arr []),
    ("spicesAndHerbs", .arr [])]),
  ("steps", .arr [.str "Mix"]), ("cookTime", Json.null), ("servings", Json.null),
  ("lang", .str "en")]

/-- The benign environment whose model output parses to `rC4`. -/
def envC4 : Env := { envBase with json_loads := fun _ => .ok rC4 }

/-- Claim C4 counterexample: in text mode the handler overwrites the
model's `isImaginary: true` with `false` and flattens the ingredients, so
the recipe in the response is not the model's parsed output unchanged. -/
theorem c4_counterexample :
    modelRecipe envC4 reqText = some rC4 ∧
    (extract_recipe envC4 reqText).2.status = 200 ∧
    responseRecipe envC4 reqText ≠ rC4 := by
  refine ⟨rfl, rfl, ?_⟩
  intro hcontra
  have h1 : getKey (responseRecipe envC4 reqText) "isImaginary" = some (.bool false) := rfl
  rw [hcontra] at h1
  have h2 : getKey rC4 "isImaginary" = some (.bool true) := rfl
  rw [h1] at h2
  simp at h2

/-- Claim C4 (amended): the recipe record is not independently validated,
but it is modified on its way to the response: the handler overwrites
`isImaginary` (in text mode it is always `false`) and replaces
`ingredients` and `steps` with their flattened forms; every other
top-level field of the parsed model output passes through to the
response's recipe unchanged. -/
theorem c4_passthrough (env : Env) (req : Request) (r0 : Json)
    (hm : modelRecipe env req = some r0)
    (hs : (extract_recipe env req).2.status = 200) :
    (∀ k, k ≠ "ingredients" → k ≠ "steps" → k ≠ "isImaginary" →
      getKey (responseRecipe env req) k = getKey r0 k) ∧
    (pyStrip (formGet req "recipe_text") ≠ "" →
      getKey (responseRecipe env req) "isImaginary" = some (.bool false)) := by
  obtain ⟨evs, recipe, source, pc, nr, b, hacq, hconf, hpc, hn, hfb, hext⟩ :=
    success_decomp hs
  obtain ⟨r0', hm', hcase⟩ := acquire_got_decomp hacq
  rw [hm] at hm'
  have hr0 : r0' = r0 := by simpa using hm'.symm
  subst hr0
  obtain ⟨hj_imag, ingredients, hj_ing, hsplit, hj_steps⟩ := pageContent_ok_fields hpc
  obtain ⟨all1, ai, its, fs, nurl, rec, hadd1, hadd2, hiter, hmapme, hurl, hspread, hb⟩ :=
    finishBody_ok_shape hfb
  obtain ⟨kvs, hrobj, hingval⟩ := jget_ok_obj hj_ing
  have hrr : responseRecipe env req = rec := by
    rw [responseRecipe, hext]
    subst hb
    simp [getKey, jlookup]
  have hrecval : rec = .obj (setPairs (setPairs kvs "ingredients" ai) "steps" (.arr fs)) := by
    rw [hrobj] at hspread
    simp only [dictSpread, List.foldl, Except.ok.injEq] at hspread
    exact hspread.symm
  have hrec_other : ∀ k, k ≠ "ingredients" → k ≠ "steps" → getKey rec k = getKey recipe k := by
    intro k h1 h2
    rw [hrecval, hrobj]
    simp only [getKey]
    rw [jlookup_setPairs_other _ _ _ _ h2, jlookup_setPairs_other _ _ _ _ h1]
  have hpres : ∀ k, k ≠ "isImaginary" → getKey recipe k = getKey r0' k := by
    rcases hcase with ⟨-, -, hsi⟩ | ⟨-, -, himg⟩
    · exact fun k hk => (setItem_ok_fields hsi).2 k hk
    · rcases himg with rfl | hsi
      · intro k _
        rfl
      · exact fun k hk => (setItem_ok_fields hsi).2 k hk
  refine ⟨?_, ?_⟩
  · intro k h1 h2 h3
    rw [hrr, hrec_other k h1 h2, hpres k h3]
  · intro ht
    have htext : setItem r0' "isImaginary" (.bool false) = .ok recipe := by
      rcases hcase with ⟨-, -, hsi⟩ | ⟨-, hevs2, -⟩
      · exact hsi
      · subst hevs2
        rcases text_trace env req ht with htr | htr <;> rw [hext] at htr <;> simp at htr
    rw [hrr, hrec_other "isImaginary" (by simp) (by simp)]
    exact (setItem_ok_fields htext).1

theorem c4_witness :
    getKey (responseRecipe envBase reqText) "title" = getKey rBase "title" ∧
    getKey (responseRecipe envBase reqText) "isImaginary" = some (.bool false) :=
  ⟨(c4_passthrough envBase reqText rBase rfl rfl).1 "title" (by simp) (by simp) (by simp),
   (c4_passthrough envBase reqText rBase rfl rfl).2 (by decide)⟩

/-- One step of the recipe schema requested in `RECIPE_PROMPT_JSON`:
an instruction and the ingredients it consumes. -/
structure PromptStep where
  instruction : String
  ingredients : List String

/-- The three fixed ingredient categories of the requested schema. -/
structure PromptIngredients where
  main : List String
  sauce : List String
  spicesAndHerbs : List String

/-- The recipe record schema requested from the model in
`RECIPE_PROMPT_JSON` (`app.py` lines 15-33): a title, an optional
imaginary flag, ingredients in the three fixed categories, annotated
steps, a cook time, a servings count and a language code — exactly these
fields. -/
structure PromptRecipe where
  title : String
  isImaginary : Option Bool
  ingredients : PromptIngredients
  steps : List PromptStep
  cookTime : Option String
  servings : Option String
  lang : String

/-- A string-or-null field of the schema (`"time or null"`). -/
def optStrJson : Option String → Json
  | none => Json.null
  | some s => .str s

/-- The JSON form of a schema step. -/
def PromptStep.toJson (s : PromptStep) : Json :=
  .obj [("instruction", .str s.instruction),
    ("ingredients", .arr (s.ingredients.map Json.str))]

/-- The JSON form of the grouped ingredients. -/
def PromptIngredients.toJson (i : PromptIngredients) : Json :=
  .obj [("main", .arr (i.main.map Json.str)), ("sauce", .arr (i.sauce.map Json.str)),
    ("spicesAndHerbs", .arr (i.spicesAndHerbs.map Json.str))]

/-- The key-value list of a schema record in JSON form. -/
def promptKvs (r : PromptRecipe) : List (String × Json) :=
  [("title", .str r.title)] ++
    (match r.isImaginary with
     | some b => [("isImaginary", Json.bool b)]
     | none => []) ++
    [("ingredients", r.ingredients.toJson),
     ("steps", .arr (r.steps.map PromptStep.toJson)),
     ("cookTime", optStrJson r.cookTime), ("servings", optStrJson r.servings),
     ("lang", .str r.lang)]

/-- The JSON form of a schema record. -/
def PromptRecipe.toJson (r : PromptRecipe) : Json := .obj (promptKvs r)

theorem promptKvs_lookup (r : PromptRecipe) :
    jlookup (promptKvs r) "title" = some (.str r.title) ∧
    jlookup (promptKvs r) "ingredients" = some r.ingredients.toJson ∧
    jlookup (promptKvs r) "steps" = some (.arr (r.steps.map PromptStep.toJson)) ∧
    jlookup (promptKvs r) "cookTime" = some (optStrJson r.cookTime) := by
  cases h : r.isImaginary <;> simp [promptKvs, h, jlookup]

theorem mapME_ok_of_all {α β : Type} {f : α → Except Failure β} {l : List α}
    (h : ∀ x ∈ l, ∃ y, f x = .ok y) : ∃ ys, mapME f l = .ok ys := by
  induction l with
  | nil => exact ⟨[], rfl⟩
  | cons x rest ih =>
    obtain ⟨y, hy⟩ := h x (by simp)
    obtain ⟨ys, hys⟩ := ih (fun z hz => h z (by simp [hz]))
    exact ⟨y :: ys, by simp [mapME, hy, hys]⟩

theorem mapME_checkbox_strs (l : List String) :
    mapME (fun i => checkbox i true) (l.map Json.str)
      = .ok (l.map (fun s => mkTodo (parse_ingredient_rich_text s))) := by
  induction l with
  | nil => rfl
  | cons s rest ih =>
    have hc : checkbox (Json.str s) true = .ok (mkTodo (parse_ingredient_rich_text s)) := rfl
    simp only [List.map_cons, mapME, hc, ih]

theorem ingredientSection_strs_ok (hdr : String) (l : List String) :
    ∃ blocks, ingredientSection hdr (.arr (l.map Json.str)) = .ok blocks := by
  by_cases hl : truthy (.arr (l.map Json.str)) = true
  · exact ⟨heading3 hdr :: l.map (fun s => mkTodo (parse_ingredient_rich_text s)),
      by simp [ingredientSection, hl, pyIter, mapME_checkbox_strs]⟩
  · exact ⟨[], by simp [ingredientSection, hl]⟩

theorem pyJoin_strs_ok (sep : String) (l : List String) :
    pyJoin sep (.arr (l.map Json.str)) = .ok (String.intercalate sep l) := by
  have h : pyJoin.strsOf (l.map Json.str) = some l := by
    induction l with
    | nil => rfl
    | cons s rest ih => simp [pyJoin.strsOf, ih]
  simp [pyJoin, pyIter, h]

theorem stepBlocks_prompt_ok (st : PromptStep) :
    ∃ blocks, stepBlocks (PromptStep.toJson st) = .ok blocks := by
  by_cases hi : truthy (.arr (st.ingredients.map Json.str)) = true
  · exact ⟨[mkTodo [textSegment (.str st.instruction)],
      stepIngredientsParagraph (String.intercalate "  ·  " st.ingredients)],
      by simp [stepBlocks, PromptStep.toJson, isStrJ, jget, jlookup, checkbox,
        hi, pyJoin_strs_ok]⟩
  · exact ⟨[mkTodo [textSegment (.str st.instruction)]],
      by simp [stepBlocks, PromptStep.toJson, isStrJ, jget, jlookup, checkbox, hi]⟩

theorem build_steps_prompt_ok (steps : List PromptStep) :
    ∃ blocks, build_steps (.arr (steps.map PromptStep.toJson)) = .ok blocks := by
  have hall : ∀ st ∈ steps.map PromptStep.toJson, ∃ y, stepBlocks st = .ok y := by
    intro st hst
    simp only [List.mem_map] at hst
    obtain ⟨st0, -, rfl⟩ := hst
    exact stepBlocks_prompt_ok st0
  obtain ⟨ys, hys⟩ := mapME_ok_of_all hall
  exact ⟨ys.flatten, by simp [build_steps, pyIter, hys]⟩

theorem pageContent_prompt_ok (r : PromptRecipe) (sl : String) :
    ∃ pc, pageContent (.obj (setPairs (promptKvs r) "isImaginary" (.bool false))) sl
      = .ok pc := by
  obtain ⟨hti, hing, hsteps, hcook⟩ := promptKvs_lookup r
  obtain ⟨mainSec, hmainSec⟩ := ingredientSection_strs_ok "Main Ingredients" r.ingredients.main
  obtain ⟨sauceSec, hsauceSec⟩ := ingredientSection_strs_ok "Sauce" r.ingredients.sauce
  obtain ⟨spiceSec, hspiceSec⟩ :=
    ingredientSection_strs_ok "Spices & Herbs" r.ingredients.spicesAndHerbs
  obtain ⟨stepSec, hstepSec⟩ := build_steps_prompt_ok r.steps
  have e1 : jget (.obj (setPairs (promptKvs r) "isImaginary" (.bool false)))
      "isImaginary" (.bool false) = .ok (.bool false) := by
    simp [jget, jlookup_setPairs_same]
  have e2 : jget (.obj (setPairs (promptKvs r) "isImaginary" (.bool false)))
      "ingredients" (.obj []) = .ok r.ingredients.toJson := by
    simp [jget, jlookup_setPairs_other (promptKvs r) "isImaginary" (.bool false) "ingredients" (by decide), hing]
  have e3 : jget (.obj (setPairs (promptKvs r) "isImaginary" (.bool false)))
      "steps" (.arr []) = .ok (.arr (r.steps.map PromptStep.toJson)) := by
    simp [jget, jlookup_setPairs_other (promptKvs r) "isImaginary" (.bool false) "steps" (by decide), hsteps]
  have e4 : jget (.obj (setPairs (promptKvs r) "isImaginary" (.bool false)))
      "cookTime" Json.null = .ok (optStrJson r.cookTime) := by
    simp [jget, jlookup_setPairs_other (promptKvs r) "isImaginary" (.bool false) "cookTime" (by decide), hcook]
  have e5 : jget (.obj (setPairs (promptKvs r) "isImaginary" (.bool false)))
      "title" (.str "Untitled Recipe") = .ok (.str r.title) := by
    simp [jget, jlookup_setPairs_other (promptKvs r) "isImaginary" (.bool false) "title" (by decide), hti]
  have e6 : splitIngredients r.ingredients.toJson =
      .ok (.arr (r.ingredients.main.map Json.str), .arr (r.ingredients.sauce.map Json.str),
        .arr (r.ingredients.spicesAndHerbs.map Json.str)) := by
    simp [PromptIngredients.toJson, splitIngredients, jget, jlookup]
  cases hres : pageContent (.obj (setPairs (promptKvs r) "isImaginary" (.bool false))) sl with
  | ok pc => exact ⟨pc, rfl⟩
  | error f =>
    simp [pageContent, truthy, e1, e2, e3, e4, e5, e6, hmainSec, hsauceSec, hspiceSec,
      hstepSec] at hres

/-- Claim C5 (amended): any record of exactly the schema requested
in `RECIPE_PROMPT_JSON` is processed to a successful response (in text
mode, with a benign environment): the handler's field accesses all stay
within the schema. -/
theorem c5_exact_schema (r : PromptRecipe) (env : Env) (req : Request)
    (ht : pyStrip (formGet req "recipe_text") ≠ "")
    (hm : modelRecipe env req = some (PromptRecipe.toJson r))
    (hconf : notionConfigured env = true)
    (hpage : ∀ args, ∃ pkvs, env.pages_create args = .ok (.obj pkvs)) :
    (extract_recipe env req).2.status = 200 := by
  simp only [modelRecipe, if_pos ht] at hm
  split at hm
  case h_1 e hg => simp at hm
  case h_2 t hg =>
    split at hm
    case h_1 u hl => simp at hm
    case h_2 r0 hl =>
      rw [Option.some.injEq] at hm
      subst hm
      have hacq : acquireRecipe env req = ([Event.genTextExtract],
          .ok (.got (.obj (setPairs (promptKvs r) "isImaginary" (.bool false))) "text")) := by
        simp [acquireRecipe, if_pos ht, hg, hl, setItem, PromptRecipe.toJson]
      obtain ⟨pc, hpc⟩ := pageContent_prompt_ok r (pyStrip (formGet req "source_link"))
      obtain ⟨hj_imag, ingredients, hj_ing, hsplit, hj_steps⟩ := pageContent_ok_fields hpc
      obtain ⟨hti, hing, hsteps, hcook⟩ := promptKvs_lookup r
      have e2 : jget (.obj (setPairs (promptKvs r) "isImaginary" (.bool false)))
          "ingredients" (.obj []) = .ok r.ingredients.toJson := by
        simp [jget, jlookup_setPairs_other (promptKvs r) "isImaginary" (.bool false) "ingredients" (by decide), hing]
      have e3 : jget (.obj (setPairs (promptKvs r) "isImaginary" (.bool false)))
          "steps" (.arr []) = .ok (.arr (r.steps.map PromptStep.toJson)) := by
        simp [jget, jlookup_setPairs_other (promptKvs r) "isImaginary" (.bool false) "steps" (by decide), hsteps]
      have hingv : ingredients = r.ingredients.toJson := by
        rw [e2] at hj_ing
        simpa using hj_ing.symm
      subst hingv
      have e6 : splitIngredients r.ingredients.toJson =
          .ok (.arr (r.ingredients.main.map Json.str),
            .arr (r.ingredients.sauce.map Json.str),
            .arr (r.ingredients.spicesAndHerbs.map Json.str)) := by
        simp [PromptIngredients.toJson, splitIngredients, jget, jlookup]
      rw [e6] at hsplit
      simp only [Except.ok.injEq, Prod.mk.injEq] at hsplit
      obtain ⟨hpm, hpsc, hpsp⟩ := hsplit
      have hstv : pc.steps = .arr (r.steps.map PromptStep.toJson) := by
        rw [e3] at hj_steps
        simpa using hj_steps.symm
      obtain ⟨pkvs, hnr⟩ := hpage (mkArgs (env.notion_database_id.getD "") pc)
      obtain ⟨fsL, hfsL⟩ : ∃ ys,
          mapME (fun s => if isStrJ s then .ok s else jget s "instruction" (.str ""))
            (r.steps.map PromptStep.toJson) = .ok ys := by
        refine mapME_ok_of_all ?_
        intro s hs
        simp only [List.mem_map] at hs
        obtain ⟨st0, -, rfl⟩ := hs
        exact ⟨.str st0.instruction, by simp [isStrJ, PromptStep.toJson, jget, jlookup]⟩
      have hfb : ∃ b, finishBody (.obj (setPairs (promptKvs r) "isImaginary" (.bool false)))
          pc "text" (.obj pkvs) = .ok b := by
        cases hres : finishBody (.obj (setPairs (promptKvs r) "isImaginary" (.bool false)))
            pc "text" (.obj pkvs) with
        | ok b => exact ⟨b, rfl⟩
        | error f =>
          have e7 : jget (.obj pkvs) "url" (.str "") =
              .ok ((jlookup pkvs "url").getD (.str "")) := rfl
          simp [finishBody, ← hpm, ← hpsc, ← hpsp, pyAdd, hstv, pyIter, hfsL, e7,
            dictSpread] at hres
      obtain ⟨b, hfb'⟩ := hfb
      have htry : tryBody env req =
          ([Event.genTextExtract, Event.pagesCreate], .ok (⟨200, b⟩ : Resp)) := by
        simp [tryBody, hacq, runSave, hconf, hpc, hnr, hfb']
      rw [extract_recipe, htry]
      rfl

/-- The environment whose model output parses to the empty JSON object. -/
def envC5 : Env := { envBase with json_loads := fun _ => .ok (.obj []) }

/-- Claim C5 counterexample: the handler successfully processes a recipe
record having none of the claimed fields (the empty object): every field
access falls back to a default, so not every record the handler processes
consists of a title, grouped ingredients, steps, a cook time, a servings
count and a language code. -/
theorem c5_counterexample :
    modelRecipe envC5 reqText = some (.obj []) ∧
    (extract_recipe envC5 reqText).2.status = 200 ∧
    hasKey (Json.obj []) "title" = false ∧
    hasKey (Json.obj []) "ingredients" = false ∧
    hasKey (Json.obj []) "steps" = false ∧
    hasKey (Json.obj []) "servings" = false ∧
    hasKey (Json.obj []) "lang" = false :=
  ⟨rfl, rfl, rfl, rfl, rfl, rfl, rfl⟩

/-- A concrete record of exactly the requested schema. -/
def rPrompt : PromptRecipe :=
  { title := "Tea", isImaginary := some false,
    ingredients := ⟨["1 cup water (240g)"], [], ["mint"]⟩,
    steps := [⟨"Boil", ["water"]⟩, ⟨"Serve", []⟩],
    cookTime := some "5 min", servings := some "1", lang := "en" }

/-- The environment whose model output parses to `rPrompt`. -/
def envPrompt : Env := { envBase with json_loads := fun _ => .ok rPrompt.toJson }

theorem c5_witness : (extract_recipe envPrompt reqText).2.status = 200 :=
  c5_exact_schema rPrompt envPrompt reqText (by decide) rfl rfl
    (fun _ => ⟨[("url", .str "https://notion.so/p")], rfl⟩)
